import Mathlib

/-!
Shallow embedding of the CameraSlider motion subsystem
(`app/motion/easing.py`, `app/motion/models.py`, `app/motion/planner.py`,
`app/controller/manager.py`) over exact rational arithmetic, together with
proofs settling the specification claims.

Python floats are modelled as `ℚ` (exact real arithmetic); float literals such
as `1e-6` become the corresponding rationals.  Wall-clock time, endstop
electrical state and the cross-thread stop event are modelled as oracle
traces (`Env`) indexed by a read counter that every observation consumes, with
monotonicity of the stop trace assumed where a claim needs it.
-/

namespace CameraSlider

/-- `max(lo, min(x, hi))` — the clamping idiom `max(0.0, min(x, travel))`
used throughout `manager.py`. -/
def clampQ (x lo hi : ℚ) : ℚ := max lo (min x hi)

/-- Python's `int(round(x))` for `x : float`: round half to even. -/
def pyRound (q : ℚ) : ℤ :=
  let f := ⌊q⌋
  let r := q - (f : ℚ)
  if r < 1/2 then f
  else if 1/2 < r then f + 1
  else if f % 2 = 0 then f else f + 1

/-! ## Easing (`app/motion/easing.py`) -/

/-- `easing.linear`. -/
def linearEase (u : ℚ) : ℚ :=
  if u ≤ 0 then 0 else if 1 ≤ u then 1 else u

/-- `Bx(t) = 3*(1-t)^2*t*x1 + 3*(1-t)*t^2*x2 + t^3` (`bx` in
`CubicBezier.sample`). -/
def bezBx (x1 x2 t : ℚ) : ℚ :=
  3 * (1 - t) * (1 - t) * t * x1 + 3 * (1 - t) * t * t * x2 + t ^ 3

/-- `By(t)` (`by` in `CubicBezier.sample`). -/
def bezBy (y1 y2 t : ℚ) : ℚ :=
  3 * (1 - t) * (1 - t) * t * y1 + 3 * (1 - t) * t * t * y2 + t ^ 3

/-- `dx(t)`, the derivative of `Bx` used by the Newton iteration. -/
def bezDx (x1 x2 t : ℚ) : ℚ :=
  3 * (1 - t) * (1 - t) * x1 + 6 * (1 - t) * t * (x2 - x1) + 3 * t * t * (1 - x2)

/-- The Newton–Raphson loop of `CubicBezier.sample`: up to `n` iterations from
iterate `t`, with the derivative guard `|d| < 1e-6` and the clamp-and-break
behaviour on leaving `[0, 1]`. -/
def newtonGo (x1 x2 u : ℚ) : Nat → ℚ → ℚ
  | 0, t => t
  | n + 1, t =>
    let d := bezDx x1 x2 t
    if |d| < 1/1000000 then t
    else
      let t' := t - (bezBx x1 x2 t - u) / d
      if t' < 0 then 0
      else if 1 < t' then 1
      else newtonGo x1 x2 u n t'

/-- The bisection fallback of `CubicBezier.sample`: up to `n` iterations with
state `lo`, `hi`, `t`, breaking once the residual of the previous iterate is
at most `1e-5`. -/
def bisectGo (x1 x2 u : ℚ) : Nat → ℚ → ℚ → ℚ → ℚ
  | 0, _, _, t => t
  | n + 1, lo, hi, t =>
    let x_t := bezBx x1 x2 t
    let lo' := if x_t < u then t else lo
    let hi' := if x_t < u then hi else t
    let t' := (lo' + hi') / 2
    if |x_t - u| ≤ 1/100000 then t' else bisectGo x1 x2 u n lo' hi' t'

/-- `CubicBezier(x1, y1, x2, y2).sample(u)`: early return `0` for `u ≤ 0` and
`1` for `u ≥ 1`; otherwise solve `Bx(t) = u` by 6 Newton steps from `t = u`,
fall back to 12 bisection steps when the residual exceeds `1e-4`, and return
`By(t)`. -/
def bezierSample (x1 y1 x2 y2 u : ℚ) : ℚ :=
  if u ≤ 0 then 0
  else if 1 ≤ u then 1
  else
    let t := newtonGo x1 x2 u 6 u
    let t := if 1/10000 < |bezBx x1 x2 t - u| then bisectGo x1 x2 u 12 0 1 u else t
    bezBy y1 y2 t

/-! ## Profile model (`app/motion/models.py`) -/

/-- The `type` discriminator of `Ease`. -/
inductive EaseKind
  | linear
  | cubicBezier
deriving DecidableEq

/-- `Ease`: easing descriptor with optional Bézier control values `p`. -/
structure Ease where
  kind : EaseKind := EaseKind.linear
  p : Option (List ℚ) := none
deriving DecidableEq

/-- `Ease.validate_bezier`: a cubic-bezier ease must carry exactly four
control values (`not self.p or len(self.p) != 4` raises).  An empty list is
falsy in Python, but its length is also `≠ 4`, so the length test alone is
equivalent. -/
def validateEase (e : Ease) : Bool :=
  match e.kind with
  | EaseKind.linear => true
  | EaseKind.cubicBezier =>
    match e.p with
    | none => false
    | some l => decide (l.length = 4)

/-- `Keyframe`: time (s), position (mm), ease on arrival. -/
structure Keyframe where
  t : ℚ
  pos_mm : ℚ
  ease : Ease := {}
deriving DecidableEq

/-- `MotionProfile` record (fields as constructed, before/after validation). -/
structure MotionProfile where
  length_mm : ℚ
  keyframes : List Keyframe
  max_speed_mm_s : ℚ := 120
  max_accel_mm_s2 : ℚ := 300
deriving DecidableEq

/-- Stable insertion of a keyframe into a list sorted by `t`: the new element
goes after all existing elements whose `t` is `≤` its own. -/
def insertByT (k : Keyframe) : List Keyframe → List Keyframe
  | [] => [k]
  | k' :: ks => if k.t < k'.t then k :: k' :: ks else k' :: insertByT k ks

/-- The stable sort `self.keyframes.sort(key=lambda k: k.t)` performed by
`MotionProfile.validate_keyframes`. -/
def sortByT (ks : List Keyframe) : List Keyframe :=
  ks.foldl (fun acc k => insertByT k acc) []

/-- The validation loop of `MotionProfile.validate_keyframes`: walk the sorted
keyframes with running `last_t`, rejecting a non-increasing time or an
out-of-range position; returns the error message raised, if any. -/
def checkKeyframes (length_mm : ℚ) : List Keyframe → ℚ → Option String
  | [], _ => none
  | k :: ks, last_t =>
    if k.t ≤ last_t then some "Keyframe times must be strictly increasing"
    else if k.pos_mm < 0 then some "Keyframe position outside length"
    else if length_mm < k.pos_mm then some "Keyframe position outside length"
    else checkKeyframes length_mm ks k.t

/-- Construction-time validation of a `MotionProfile`: the pydantic field
constraints (`length_mm > 0`, speeds `> 0`, keyframe `t ≥ 0`, `Ease`
well-formedness) followed by `validate_keyframes` (at least two keyframes,
stable sort by `t`, strictly increasing times, positions in
`[0, length_mm]`).  Returns the validated (sorted) profile. -/
def validateProfile (p : MotionProfile) : Except String MotionProfile :=
  if p.length_mm ≤ 0 then Except.error "length_mm must be greater than 0"
  else if p.max_speed_mm_s ≤ 0 then Except.error "max_speed_mm_s must be greater than 0"
  else if p.max_accel_mm_s2 ≤ 0 then Except.error "max_accel_mm_s2 must be greater than 0"
  else if ¬ p.keyframes.all (fun k => decide (0 ≤ k.t)) then
    Except.error "t must be greater than or equal to 0"
  else if ¬ p.keyframes.all (fun k => validateEase k.ease) then
    Except.error "cubic-bezier requires p=[x1,y1,x2,y2]"
  else if p.keyframes.length < 2 then Except.error "At least two keyframes required"
  else
    let sorted := sortByT p.keyframes
    match checkKeyframes p.length_mm sorted (-1) with
    | some msg => Except.error msg
    | none => Except.ok { p with keyframes := sorted }

/-- `isOk` of the validation result. -/
def isOkE (r : Except String MotionProfile) : Bool :=
  match r with
  | Except.ok _ => true
  | Except.error _ => false

/-- `model_dump_json` followed by JSON parsing, at the level of the data it
transports: every field of the record is written out and read back verbatim
(numbers exactly, in this rational model). -/
def modelDump (p : MotionProfile) : MotionProfile :=
  { length_mm := p.length_mm
    keyframes := p.keyframes
    max_speed_mm_s := p.max_speed_mm_s
    max_accel_mm_s2 := p.max_accel_mm_s2 }

/-- The well-formedness a `MotionProfile` enjoys after validation (times
pairwise strictly increasing — equivalent to adjacent strict increase since
`<` is transitive). -/
def ProfileValid (p : MotionProfile) : Prop :=
  2 ≤ p.keyframes.length ∧
  List.Pairwise (fun a b => a.t < b.t) p.keyframes ∧
  (∀ k ∈ p.keyframes, 0 ≤ k.t ∧ 0 ≤ k.pos_mm ∧ k.pos_mm ≤ p.length_mm) ∧
  (∀ k ∈ p.keyframes, validateEase k.ease = true) ∧
  0 < p.length_mm

instance (p : MotionProfile) : Decidable (ProfileValid p) :=
  inferInstanceAs (Decidable (2 ≤ p.keyframes.length ∧
    List.Pairwise (fun (a b : Keyframe) => a.t < b.t) p.keyframes ∧
    (∀ k ∈ p.keyframes, 0 ≤ k.t ∧ 0 ≤ k.pos_mm ∧ k.pos_mm ≤ p.length_mm) ∧
    (∀ k ∈ p.keyframes, validateEase k.ease = true) ∧
    0 < p.length_mm))

/-! ## Planner (`app/motion/planner.py`) -/

/-- Default keyframe (used only as the `getD` default for indexing that the
Python code performs on lists known to be non-empty). -/
def dfltKeyframe : Keyframe := { t := 0, pos_mm := 0 }

/-- `_ease_fn`: dispatch on the ease type; a cubic-bezier destructures
`p = [x1, y1, x2, y2]`.  On a malformed `p` the Python unpacking would raise;
validated profiles always carry exactly four values, and we default to
`linear` on the unreachable shapes to stay total. -/
def easeApply (e : Ease) (u : ℚ) : ℚ :=
  match e.kind with
  | EaseKind.linear => linearEase u
  | EaseKind.cubicBezier =>
    match e.p with
    | some [x1, y1, x2, y2] => bezierSample x1 y1 x2 y2 u
    | _ => linearEase u

/-- The inner `while` of `sample_profile`: advance `seg_start_idx` while
`seg_start_idx < len(kfs) - 2 and t > kfs[seg_start_idx + 1].t`.  `fuel` is a
recursion bound; `kfs.length` always suffices. -/
def advanceSeg (kfs : List Keyframe) (t : ℚ) : Nat → Nat → Nat
  | 0, i => i
  | fuel + 1, i =>
    if i + 2 < kfs.length ∧ (kfs.getD (i + 1) dfltKeyframe).t < t then
      advanceSeg kfs t fuel (i + 1)
    else i

/-- One emission of `sample_profile`'s loop body at time `t` in segment
`[kfs[i], kfs[i+1]]`: normalised `u` (0 on a degenerate segment), clamped to
`[0, 1]`, eased by the arrival keyframe's ease. -/
def emitPos (kfs : List Keyframe) (i : Nat) (t : ℚ) : ℚ :=
  let k0 := kfs.getD i dfltKeyframe
  let k1 := kfs.getD (i + 1) dfltKeyframe
  let u0 : ℚ := if k1.t = k0.t then 0 else (t - k0.t) / (k1.t - k0.t)
  let u : ℚ := if u0 < 0 then 0 else if 1 < u0 then 1 else u0
  k0.pos_mm + (k1.pos_mm - k0.pos_mm) * easeApply k1.ease u

/-- The main `while t <= total_t + 1e-9` loop of `sample_profile`, emitting a
`(times, positions)` pair per iteration and stepping `t += dt`.  Structural
recursion on `fuel`; `sampleProfile` supplies fuel exceeding the iteration
count, so the `0` case is never reached there. -/
def sampleGo (kfs : List Keyframe) (totalT dt : ℚ) : Nat → ℚ → Nat → List ℚ × List ℚ
  | 0, _, _ => ([], [])
  | fuel + 1, t, i =>
    if t ≤ totalT + 1/1000000000 then
      let i' := advanceSeg kfs t kfs.length i
      let y := emitPos kfs i' t
      let r := sampleGo kfs totalT dt fuel (t + dt) i'
      (t :: r.1, y :: r.2)
    else ([], [])

/-- `sample_profile(profile, dt)`: `total_t` defaults to `0.01` when the last
keyframe time is non-positive; run the sampling loop from `t = 0`,
`seg_start_idx = 0`; finally, if the last emitted time is earlier than the
last keyframe time, append one sample at the last keyframe.  (For `dt ≤ 0`
the Python loop would not terminate; the fuel then produces the empty pair,
and every claim about the planner assumes `dt > 0`.) -/
def sampleProfile (p : MotionProfile) (dt : ℚ) : List ℚ × List ℚ :=
  let kfs := p.keyframes
  let lastKf := kfs.getD (kfs.length - 1) dfltKeyframe
  let totalT := if lastKf.t ≤ 0 then 1/100 else lastKf.t
  let fuel := (((totalT + 1/1000000000) / dt).floor + 2).toNat
  let r := sampleGo kfs totalT dt fuel 0 0
  if r.1.getD (r.1.length - 1) 0 < lastKf.t then
    (r.1 ++ [lastKf.t], r.2 ++ [lastKf.pos_mm])
  else r

/-! ## Controller (`app/controller/manager.py`)

The controller's mutable fields become `CtrlState`.  The driver's observable
state (`enable`, `set_dir`, pulse count) is folded into the same record, the
simulator driver being the reference (`pulse_step` is a no-op while the
driver is disabled).  Every environment observation — the stop event, the two
endstop reads, the `perf_counter() >= seg_deadline` test — consumes one index
of an oracle trace `Env`.  Sleeps do not affect any modelled state and are
elided. -/

/-- `status` strings of the controller. -/
inductive Status
  | idle
  | homing
  | jogging
  | priming
  | running
  | stopped
  | err
deriving DecidableEq

/-- `SliderConfig` (mechanics and limits; pins and endstop polarity do not
enter the controller logic modelled here). -/
structure SliderCfg where
  steps_per_rev : ℤ := 200
  microstep : ℤ := 16
  lead_mm_per_rev : ℚ := 8
  travel_mm : ℚ := 1200
  max_speed_mm_s : ℚ := 120
  max_accel_mm_s2 : ℚ := 300
  step_pulse_us : ℤ := 4
deriving DecidableEq

/-- `SliderConfig.steps_per_mm = steps_per_rev * microstep / lead_mm_per_rev`. -/
def SliderCfg.steps_per_mm (c : SliderCfg) : ℚ :=
  ((c.steps_per_rev * c.microstep : ℤ) : ℚ) / c.lead_mm_per_rev

/-- Controller-owned mutable state plus observable driver state. -/
structure CtrlState where
  current_pos_mm : ℚ := 0
  homed : Bool := false
  status : Status := Status.idle
  error : Option String := none
  progress : ℚ := 0
  driverEnabled : Bool := false
  dirPositive : Bool := true
  pulses : Nat := 0
deriving DecidableEq

/-- Oracle traces for everything the worker observes from outside its own
state: the cross-thread stop event, the two endstops, and whether the wall
clock has passed the current segment deadline.  Each observation consumes one
fresh index. -/
structure Env where
  stopFlag : Nat → Bool
  minPressed : Nat → Bool
  maxPressed : Nat → Bool
  deadlineHit : Nat → Bool

/-- An `Env` whose every observation is `false`: never cancelled, endstops
never pressed, deadlines never reached. -/
def benignEnv : Env :=
  { stopFlag := fun _ => false
    minPressed := fun _ => false
    maxPressed := fun _ => false
    deadlineHit := fun _ => false }

/-- The pulse loop of `_relative_move`: per iteration check the stop event,
then the direction-appropriate endstop, then pulse and advance
`current_pos_mm` by one step — with NO clamping of the running position
(unlike `_seek_endstop` and the run-profile loop). -/
def relMoveLoop (env : Env) (cfg : SliderCfg) (dirPos : Bool) :
    Nat → CtrlState → Nat → CtrlState × Nat
  | 0, s, k => (s, k)
  | n + 1, s, k =>
    if env.stopFlag k then (s, k + 1)
    else if dirPos ∧ env.maxPressed (k + 1) then (s, k + 2)
    else if (¬ dirPos) ∧ env.minPressed (k + 1) then (s, k + 2)
    else
      let s' := { s with
        pulses := s.pulses + (if s.driverEnabled then 1 else 0)
        current_pos_mm :=
          s.current_pos_mm + (if dirPos then 1 else -1) / cfg.steps_per_mm }
      relMoveLoop env cfg dirPos n s' (k + 2)

/-- `_relative_move(distance_mm, speed_mm_s)`: clamp the target to
`[0, travel_mm]`, return immediately when the clamped distance is below
`1e-6`, otherwise emit `int(round(|distance| * steps_per_mm))` pulses (speed
only paces sleeps and is not observable in state). -/
def relative_move (env : Env) (cfg : SliderCfg) (s : CtrlState) (k : Nat)
    (distance_mm speed_mm_s : ℚ) : CtrlState × Nat :=
  let target := clampQ (s.current_pos_mm + distance_mm) 0 cfg.travel_mm
  let d := target - s.current_pos_mm
  if |d| < 1/1000000 then (s, k)
  else
    let steps_total := (pyRound (|d| * cfg.steps_per_mm)).toNat
    let dirPos := decide (0 < d)
    relMoveLoop env cfg dirPos steps_total { s with dirPositive := dirPos } k

/-- The pulse loop of `_seek_endstop`: per iteration check the stop event,
then the sought endstop, then pulse, advance and CLAMP `current_pos_mm`. -/
def seekLoop (env : Env) (cfg : SliderCfg) (minEnd dirPos : Bool) :
    Nat → CtrlState → Nat → CtrlState × Nat
  | 0, s, k => (s, k)
  | n + 1, s, k =>
    if env.stopFlag k then (s, k + 1)
    else if minEnd ∧ env.minPressed (k + 1) then (s, k + 2)
    else if (¬ minEnd) ∧ env.maxPressed (k + 1) then (s, k + 2)
    else
      let s' := { s with
        pulses := s.pulses + (if s.driverEnabled then 1 else 0)
        current_pos_mm :=
          clampQ (s.current_pos_mm + (if dirPos then 1 else -1) / cfg.steps_per_mm)
            0 cfg.travel_mm }
      seekLoop env cfg minEnd dirPos n s' (k + 2)

/-- `_seek_endstop(min_endstop, speed_mm_s, max_travel_mm)`: direction away
from / toward the min endstop, step ceiling
`int(round(|max_travel_mm| * steps_per_mm))`. -/
def seek_endstop (env : Env) (cfg : SliderCfg) (s : CtrlState) (k : Nat)
    (minEnd : Bool) (max_travel_mm : ℚ) : CtrlState × Nat :=
  let dirPos := !minEnd
  let steps_limit := (pyRound (|max_travel_mm| * cfg.steps_per_mm)).toNat
  seekLoop env cfg minEnd dirPos steps_limit { s with dirPositive := dirPos } k

/-- `_do_home`: seek the min endstop over up to `travel_mm + 10`; if the stop
event is set at the post-seek check, disable and return to idle WITHOUT
touching `homed`; otherwise back off `+5 mm`, re-approach over up to `10 mm`,
then set `current_pos_mm = 0`, `homed = true`, disable, idle — regardless of
any cancellation during the back-off or the slow re-approach. -/
def do_home (env : Env) (cfg : SliderCfg) (s : CtrlState) (k : Nat) :
    CtrlState × Nat :=
  let s0 := { s with status := Status.homing, driverEnabled := true }
  let r1 := seek_endstop env cfg s0 k true (cfg.travel_mm + 10)
  if env.stopFlag r1.2 then
    ({ r1.1 with driverEnabled := false, status := Status.idle }, r1.2 + 1)
  else
    let r2 := relative_move env cfg r1.1 (r1.2 + 1) 5 30
    let r3 := seek_endstop env cfg r2.1 r2.2 true 10
    ({ r3.1 with current_pos_mm := 0, homed := true,
                 driverEnabled := false, status := Status.idle }, r3.2)

/-- The index of the oracle read performed by `_do_home`'s post-seek
cancellation check (manager.py line 148), for a command starting at read
index `k`. -/
def homeSeekCheckIdx (env : Env) (cfg : SliderCfg) (s : CtrlState) (k : Nat) : Nat :=
  (seek_endstop env cfg { s with status := Status.homing, driverEnabled := true }
    k true (cfg.travel_mm + 10)).2

/-- `_do_jog(distance_mm, speed_mm_s)`: status `jogging`, enable, relative
move (the speed clamp `max(1, min(speed, max_speed))` only paces sleeps),
disable, idle. -/
def do_jog (env : Env) (cfg : SliderCfg) (s : CtrlState) (k : Nat)
    (distance_mm speed_mm_s : ℚ) : CtrlState × Nat :=
  let s0 := { s with status := Status.jogging, driverEnabled := true }
  let spd := max 1 (min speed_mm_s cfg.max_speed_mm_s)
  let r := relative_move env cfg s0 k distance_mm spd
  ({ r.1 with driverEnabled := false, status := Status.idle }, r.2)

/-- The inner pulse loop of `_do_run_profile`: per pulse check the stop
event, the direction-appropriate endstop and the segment deadline, then
pulse, advance and clamp `current_pos_mm`. -/
def runPulseLoop (env : Env) (cfg : SliderCfg) (dirPos : Bool) :
    Nat → CtrlState → Nat → CtrlState × Nat
  | 0, s, k => (s, k)
  | n + 1, s, k =>
    if env.stopFlag k then (s, k + 1)
    else if dirPos ∧ env.maxPressed (k + 1) then (s, k + 2)
    else if (¬ dirPos) ∧ env.minPressed (k + 1) then (s, k + 2)
    else if env.deadlineHit (k + 2) then (s, k + 3)
    else
      let s' := { s with
        pulses := s.pulses + (if s.driverEnabled then 1 else 0)
        current_pos_mm :=
          clampQ (s.current_pos_mm + (if dirPos then 1 else -1) / cfg.steps_per_mm)
            0 cfg.travel_mm }
      runPulseLoop env cfg dirPos n s' (k + 3)

/-- The per-segment `for` loop of `_do_run_profile` over consecutive sample
pairs `((t0, p0), (t1, p1))`: break when the stop event is set at the top,
otherwise clamp both endpoints, derive the step count and direction, run the
pulse loop, and record `progress = t1 / total_t`. -/
def runSegsLoop (env : Env) (cfg : SliderCfg) (totalT : ℚ) :
    List ((ℚ × ℚ) × (ℚ × ℚ)) → CtrlState → Nat → CtrlState × Nat
  | [], s, k => (s, k)
  | seg :: rest, s, k =>
    if env.stopFlag k then (s, k + 1)
    else
      let p0 := seg.1.2
      let t1 := seg.2.1
      let p1 := seg.2.2
      let dp := clampQ p1 0 cfg.travel_mm - clampQ p0 0 cfg.travel_mm
      let steps := (pyRound |dp * cfg.steps_per_mm|).toNat
      let dirPos := decide (0 < dp)
      let r := runPulseLoop env cfg dirPos steps
        { s with dirPositive := dirPos } (k + 1)
      runSegsLoop env cfg totalT rest { r.1 with progress := t1 / totalT } r.2

/-- `_do_run_profile(profile)`: status `running`, enable, sample at
`dt = 0.02`, execute every segment, then snap `current_pos_mm` to the clamped
last planned position (the `try`/`except` around `pos[-1]` leaves the
position unchanged on an empty list), disable the driver, set the status from
one final read of the stop event, and force `progress = 1` exactly when that
status is `idle`. -/
def do_run_profile (env : Env) (cfg : SliderCfg) (s : CtrlState) (k : Nat)
    (p : MotionProfile) : CtrlState × Nat :=
  let s0 := { s with status := Status.running, driverEnabled := true }
  let r := sampleProfile p (1/50)
  let totalT := max (1/1000000) (r.1.getD (r.1.length - 1) 0)
  let segs := (r.1.zip r.2).zip ((r.1.drop 1).zip (r.2.drop 1))
  let r1 := runSegsLoop env cfg totalT segs s0 k
  let snapped :=
    if r.2.isEmpty then r1.1.current_pos_mm
    else clampQ (r.2.getD (r.2.length - 1) 0) 0 cfg.travel_mm
  let stopped := env.stopFlag r1.2
  let st := if stopped then Status.stopped else Status.idle
  ({ r1.1 with
      current_pos_mm := snapped
      driverEnabled := false
      status := st
      progress := if st = Status.idle then 1 else r1.1.progress }, r1.2 + 1)

/-! ## Worker loop (`SliderController._worker_loop`) -/

/-- Queue commands. -/
inductive Command
  | home
  | jog (distance_mm speed_mm_s : ℚ)
  | run_profile (p : MotionProfile)
  | prime (p : MotionProfile)

/-- One worker iteration.  The worker clears `error` (and the stop event) at
the top, then dispatches inside `try`/`except`.  The body's effect is the
oracle `ex`, returning the state at normal return or at the point an
unexpected exception (driver, sleep, …) was raised, together with the raised
message if any; the handler records the message, sets status `error` and
disables the driver. -/
def workerStep (ex : Command → CtrlState → CtrlState × Option String)
    (s : CtrlState) (c : Command) : CtrlState :=
  let s0 := { s with error := none }
  match ex c s0 with
  | (s1, none) => s1
  | (s1, some msg) =>
    { s1 with error := some msg, status := Status.err, driverEnabled := false }

/-- The worker loop over a queue prefix: every dequeued command is executed;
no outcome terminates the loop. -/
def workerRun (ex : Command → CtrlState → CtrlState × Option String)
    (cmds : List Command) (s : CtrlState) : CtrlState :=
  cmds.foldl (workerStep ex) s

/-! ## Lemmas about the Bézier easing -/

theorem bezDx_third (t : ℚ) : bezDx (1/3) (2/3) t = 1 := by
  unfold bezDx; ring

theorem bezBx_third (t : ℚ) : bezBx (1/3) (2/3) t = t := by
  unfold bezBx; ring

/-- With control x-values `(1/3, 2/3)` the x-curve is the identity, so every
Newton step from `t = u` stays at `u`. -/
theorem newtonGo_third (u : ℚ) (h0 : 0 < u) (h1 : u < 1) :
    ∀ n, newtonGo (1/3) (2/3) u n u = u := by
  intro n
  induction n with
  | zero => rfl
  | succ n ih =>
    show newtonGo (1/3) (2/3) u (n + 1) u = u
    rw [newtonGo]
    simp only [bezDx_third, bezBx_third]
    rw [if_neg (by norm_num)]
    have h2 : u - (u - u) / 1 = u := by ring
    rw [h2, if_neg (by linarith), if_neg (by linarith)]
    exact ih

/-- With control x-values `(1/3, 2/3)` the solver is exact on `(0, 1)` and the
sample is just `By(u)`. -/
theorem bezierSample_third (y1 y2 u : ℚ) (h0 : 0 < u) (h1 : u < 1) :
    bezierSample (1/3) y1 (2/3) y2 u = bezBy y1 y2 u := by
  unfold bezierSample
  rw [if_neg (by linarith), if_neg (by linarith)]
  simp only [newtonGo_third u h0 h1, bezBx_third]
  rw [sub_self, abs_zero, if_neg (by norm_num)]

theorem bezBy_nonneg (y1 y2 t : ℚ) (hy1 : 0 ≤ y1) (hy2 : 0 ≤ y2)
    (h0 : 0 ≤ t) (h1 : t ≤ 1) : 0 ≤ bezBy y1 y2 t := by
  have hmt : (0:ℚ) ≤ 1 - t := by linarith
  have a1 : (0:ℚ) ≤ 3 * (1 - t) * (1 - t) * t * y1 :=
    mul_nonneg (mul_nonneg (mul_nonneg (by linarith) hmt) h0) hy1
  have a2 : (0:ℚ) ≤ 3 * (1 - t) * t * t * y2 :=
    mul_nonneg (mul_nonneg (mul_nonneg (by linarith) h0) h0) hy2
  have a3 : (0:ℚ) ≤ t ^ 3 := pow_nonneg h0 3
  unfold bezBy; linarith

theorem bezBy_le_one (y1 y2 t : ℚ) (hy1 : y1 ≤ 1) (hy2 : y2 ≤ 1)
    (h0 : 0 ≤ t) (h1 : t ≤ 1) : bezBy y1 y2 t ≤ 1 := by
  have hmt : (0:ℚ) ≤ 1 - t := by linarith
  have key : 1 - bezBy y1 y2 t =
      3 * t * ((1 - t) * (1 - t)) * (1 - y1) + 3 * (t * t) * (1 - t) * (1 - y2)
        + (1 - t) ^ 3 := by
    unfold bezBy; ring
  have a1 : (0:ℚ) ≤ 3 * t * ((1 - t) * (1 - t)) * (1 - y1) :=
    mul_nonneg (mul_nonneg (by linarith) (mul_nonneg hmt hmt)) (by linarith)
  have a2 : (0:ℚ) ≤ 3 * (t * t) * (1 - t) * (1 - y2) :=
    mul_nonneg (mul_nonneg (mul_nonneg (by norm_num) (mul_nonneg h0 h0)) hmt)
      (by linarith)
  have a3 : (0:ℚ) ≤ (1 - t) ^ 3 := pow_nonneg hmt 3
  linarith

/-- `By` is non-decreasing on `[0, 1]` when both control y-values lie in
`[0, 1]` (bilinear-vertex decomposition of the divided difference). -/
theorem bezBy_mono (y1 y2 u v : ℚ) (hy1 : 0 ≤ y1) (hy1' : y1 ≤ 1)
    (hy2 : 0 ≤ y2) (hy2' : y2 ≤ 1) (hu : 0 ≤ u) (huv : u ≤ v) (hv : v ≤ 1) :
    bezBy y1 y2 u ≤ bezBy y1 y2 v := by
  have hv0 : (0:ℚ) ≤ v := le_trans hu huv
  have hu1 : u ≤ 1 := le_trans huv hv
  have key : bezBy y1 y2 v - bezBy y1 y2 u =
      (v - u) *
        ((1 - y1) * (1 - y2) * (u ^ 2 + u * v + v ^ 2)
          + y1 * (1 - y2) * ((2 * u + v - 3/2) ^ 2 + 3 * (v - 1/2) ^ 2)
          + (1 - y1) * y2 * (3 * (u * (1 - u)) + 3 * (v * (1 - v)) + (u - v) ^ 2)
          + y1 * y2 * ((u - 1) ^ 2 + (v - 1) ^ 2 + (u - 1) * (v - 1))) := by
    unfold bezBy; ring
  have q1 : (0:ℚ) ≤ u ^ 2 + u * v + v ^ 2 := by
    nlinarith [sq_nonneg (u + v), sq_nonneg u, sq_nonneg v]
  have q2 : (0:ℚ) ≤ (2 * u + v - 3/2) ^ 2 + 3 * (v - 1/2) ^ 2 := by positivity
  have q3 : (0:ℚ) ≤ 3 * (u * (1 - u)) + 3 * (v * (1 - v)) + (u - v) ^ 2 := by
    have := mul_nonneg hu (by linarith : (0:ℚ) ≤ 1 - u)
    have := mul_nonneg hv0 (by linarith : (0:ℚ) ≤ 1 - v)
    nlinarith [sq_nonneg (u - v)]
  have q4 : (0:ℚ) ≤ (u - 1) ^ 2 + (v - 1) ^ 2 + (u - 1) * (v - 1) := by
    nlinarith [sq_nonneg ((u - 1) + (v - 1)), sq_nonneg (u - 1), sq_nonneg (v - 1)]
  have f1 : (0:ℚ) ≤ (1 - y1) * (1 - y2) * (u ^ 2 + u * v + v ^ 2) :=
    mul_nonneg (mul_nonneg (by linarith) (by linarith)) q1
  have f2 : (0:ℚ) ≤ y1 * (1 - y2) * ((2 * u + v - 3/2) ^ 2 + 3 * (v - 1/2) ^ 2) :=
    mul_nonneg (mul_nonneg hy1 (by linarith)) q2
  have f3 : (0:ℚ) ≤
      (1 - y1) * y2 * (3 * (u * (1 - u)) + 3 * (v * (1 - v)) + (u - v) ^ 2) :=
    mul_nonneg (mul_nonneg (by linarith) hy2) q3
  have f4 : (0:ℚ) ≤ y1 * y2 * ((u - 1) ^ 2 + (v - 1) ^ 2 + (u - 1) * (v - 1)) :=
    mul_nonneg (mul_nonneg hy1 hy2) q4
  have hprod : (0:ℚ) ≤ (v - u) *
      ((1 - y1) * (1 - y2) * (u ^ 2 + u * v + v ^ 2)
        + y1 * (1 - y2) * ((2 * u + v - 3/2) ^ 2 + 3 * (v - 1/2) ^ 2)
        + (1 - y1) * y2 * (3 * (u * (1 - u)) + 3 * (v * (1 - v)) + (u - v) ^ 2)
        + y1 * y2 * ((u - 1) ^ 2 + (v - 1) ^ 2 + (u - 1) * (v - 1))) :=
    mul_nonneg (by linarith) (by linarith)
  have hd : (0:ℚ) ≤ bezBy y1 y2 v - bezBy y1 y2 u := by rw [key]; exact hprod
  linarith

/-- C5 (counterexample): the claim "`sample` is non-decreasing on `[0,1]` for
control points with `x1, x2 ∈ [0,1]`" is false for the algorithm as written.
With `cubic-bezier(1/3, 5, 2/3, 0)` (x-values in `[0,1]`; y-values are
unconstrained reals per the model validator) the sample DECREASES from
`u = 1/5` to `u = 9/10`; and even with ALL four control values in `[0,1]`,
`cubic-bezier(1, 0, 1/20, 1)` decreases from `u = 849/2000` to `u = 17/40`
(a Newton/bisection hand-off artefact near the flat point of `Bx`). -/
theorem claim_C5_counterexample :
    ((0:ℚ) ≤ 1/3 ∧ (1:ℚ)/3 ≤ 1 ∧ (0:ℚ) ≤ 2/3 ∧ (2:ℚ)/3 ≤ 1) ∧
    (1:ℚ)/5 ≤ 9/10 ∧
    bezierSample (1/3) 5 (2/3) 0 (9/10) < bezierSample (1/3) 5 (2/3) 0 (1/5) ∧
    ((0:ℚ) ≤ 1/20 ∧ (1:ℚ)/20 ≤ 1 ∧ (0:ℚ) ≤ (1:ℚ) ∧ (1:ℚ) ≤ 1 ∧
      (0:ℚ) ≤ (0:ℚ) ∧ (0:ℚ) ≤ 1) ∧
    (849:ℚ)/2000 ≤ 17/40 ∧
    bezierSample 1 0 (1/20) 1 (17/40) < bezierSample 1 0 (1/20) 1 (849/2000) := by
  with_unfolding_all decide

/-- C5 (amended): `CubicBezier.sample` returns exactly `0` for every `u ≤ 0`
and exactly `1` for every `u ≥ 1`; and it is non-decreasing on all of `ℚ`
when the x-control values are `(1/3, 2/3)` (for which the Newton solver is
exact) and both y-control values lie in `[0, 1]`.  For general
`x1, x2 ∈ [0,1]` monotonicity fails (see the counterexample), because the
approximate root finder and the CSS-style unconstrained y-values can both
produce decreases. -/
theorem claim_C5_amended (x1 y1 x2 y2 u v : ℚ) :
    (u ≤ 0 → bezierSample x1 y1 x2 y2 u = 0) ∧
    (1 ≤ u → bezierSample x1 y1 x2 y2 u = 1) ∧
    (0 ≤ y1 → y1 ≤ 1 → 0 ≤ y2 → y2 ≤ 1 → u ≤ v →
      bezierSample (1/3) y1 (2/3) y2 u ≤ bezierSample (1/3) y1 (2/3) y2 v) := by
  refine ⟨?_, ?_, ?_⟩
  · intro h; unfold bezierSample; rw [if_pos h]
  · intro h
    unfold bezierSample
    rw [if_neg (by linarith), if_pos h]
  · intro hy1 hy1' hy2 hy2' huv
    rcases le_or_lt u 0 with h | h
    · have hu0 : bezierSample (1/3) y1 (2/3) y2 u = 0 := by
        unfold bezierSample; rw [if_pos h]
      rw [hu0]
      rcases le_or_lt v 0 with hv | hv
      · have : bezierSample (1/3) y1 (2/3) y2 v = 0 := by
          unfold bezierSample; rw [if_pos hv]
        rw [this]
      · rcases le_or_lt 1 v with hv1 | hv1
        · have : bezierSample (1/3) y1 (2/3) y2 v = 1 := by
            unfold bezierSample; rw [if_neg (by linarith), if_pos hv1]
          rw [this]; norm_num
        · rw [bezierSample_third y1 y2 v hv hv1]
          exact bezBy_nonneg y1 y2 v hy1 hy2 hv.le hv1.le
    · rcases le_or_lt 1 u with h1 | h1
      · have hv1 : 1 ≤ v := le_trans h1 huv
        have e1 : bezierSample (1/3) y1 (2/3) y2 u = 1 := by
          unfold bezierSample; rw [if_neg (by linarith), if_pos h1]
        have e2 : bezierSample (1/3) y1 (2/3) y2 v = 1 := by
          unfold bezierSample; rw [if_neg (by linarith), if_pos hv1]
        rw [e1, e2]
      · rw [bezierSample_third y1 y2 u h h1]
        rcases le_or_lt 1 v with hv1 | hv1
        · have e2 : bezierSample (1/3) y1 (2/3) y2 v = 1 := by
            unfold bezierSample; rw [if_neg (by linarith), if_pos hv1]
          rw [e2]
          exact bezBy_le_one y1 y2 u hy1' hy2' h.le h1.le
        · rw [bezierSample_third y1 y2 v (by linarith) hv1]
          exact bezBy_mono y1 y2 u v hy1 hy1' hy2 hy2' h.le huv hv1.le

/-- C5 (witness): the amended theorem applied at concrete inputs. -/
theorem claim_C5_witness :
    bezierSample 0 0 0 0 (-1) = 0 ∧ bezierSample (1/2) (1/2) (1/2) (1/2) 2 = 1 ∧
    bezierSample (1/3) (1/2) (2/3) (3/4) (1/4) ≤
      bezierSample (1/3) (1/2) (2/3) (3/4) (3/4) :=
  ⟨(claim_C5_amended 0 0 0 0 (-1) 0).1 (by norm_num),
   (claim_C5_amended (1/2) (1/2) (1/2) (1/2) 2 0).2.1 (by norm_num),
   (claim_C5_amended (1/3) (1/2) (2/3) (3/4) (1/4) (3/4)).2.2 (by norm_num)
     (by norm_num) (by norm_num) (by norm_num) (by norm_num)⟩

/-! ## Controller lemmas -/

/-- Under a benign environment (no stop, no endstops) the `_relative_move`
pulse loop emits exactly its step budget, advancing the (unclamped!) position
one step at a time and touching nothing else. -/
theorem relMoveLoop_benign (env : Env) (cfg : SliderCfg) (dirPos : Bool)
    (hstop : ∀ i, env.stopFlag i = false)
    (hmin : ∀ i, env.minPressed i = false)
    (hmax : ∀ i, env.maxPressed i = false) :
    ∀ (n : Nat) (s : CtrlState) (k : Nat),
      (relMoveLoop env cfg dirPos n s k).1.pulses
          = s.pulses + (if s.driverEnabled then n else 0) ∧
      (relMoveLoop env cfg dirPos n s k).1.current_pos_mm
          = s.current_pos_mm + (n : ℚ) * ((if dirPos then 1 else -1) / cfg.steps_per_mm) ∧
      (relMoveLoop env cfg dirPos n s k).1.error = s.error ∧
      (relMoveLoop env cfg dirPos n s k).1.status = s.status ∧
      (relMoveLoop env cfg dirPos n s k).1.driverEnabled = s.driverEnabled := by
  intro n
  induction n with
  | zero =>
    intro s k
    simp [relMoveLoop]
  | succ n ih =>
    intro s k
    simp only [relMoveLoop, hstop, hmin, hmax, and_false, false_and, if_false,
      Bool.false_eq_true]
    obtain ⟨h1, h2, h3, h4, h5⟩ := ih
      { s with
        pulses := s.pulses + (if s.driverEnabled then 1 else 0)
        current_pos_mm :=
          s.current_pos_mm + (if dirPos then 1 else -1) / cfg.steps_per_mm } (k + 2)
    refine ⟨?_, ?_, h3, h4, h5⟩
    · rw [h1]
      cases hd : s.driverEnabled <;> simp <;> omega
    · rw [h2]
      push_cast
      ring

/-- The `_seek_endstop` pulse loop never touches `homed`, `status`,
`driverEnabled` or `error`. -/
theorem seekLoop_inv (env : Env) (cfg : SliderCfg) (minEnd dirPos : Bool) :
    ∀ (n : Nat) (s : CtrlState) (k : Nat),
      (seekLoop env cfg minEnd dirPos n s k).1.homed = s.homed ∧
      (seekLoop env cfg minEnd dirPos n s k).1.status = s.status ∧
      (seekLoop env cfg minEnd dirPos n s k).1.driverEnabled = s.driverEnabled ∧
      (seekLoop env cfg minEnd dirPos n s k).1.error = s.error := by
  intro n
  induction n with
  | zero => intro s k; simp [seekLoop]
  | succ n ih =>
    intro s k
    rw [seekLoop]
    split
    · simp
    · split
      · simp
      · split
        · simp
        · exact ih _ _

/-- The `_relative_move` pulse loop never touches `homed`. -/
theorem relMoveLoop_homed (env : Env) (cfg : SliderCfg) (dirPos : Bool) :
    ∀ (n : Nat) (s : CtrlState) (k : Nat),
      (relMoveLoop env cfg dirPos n s k).1.homed = s.homed := by
  intro n
  induction n with
  | zero => intro s k; simp [relMoveLoop]
  | succ n ih =>
    intro s k
    rw [relMoveLoop]
    split
    · simp
    · split
      · simp
      · split
        · simp
        · exact ih _ _

/-- The run-profile inner pulse loop never touches `status`, `driverEnabled`
or `progress`. -/
theorem runPulseLoop_inv (env : Env) (cfg : SliderCfg) (dirPos : Bool) :
    ∀ (n : Nat) (s : CtrlState) (k : Nat),
      (runPulseLoop env cfg dirPos n s k).1.status = s.status ∧
      (runPulseLoop env cfg dirPos n s k).1.driverEnabled = s.driverEnabled := by
  intro n
  induction n with
  | zero => intro s k; simp [runPulseLoop]
  | succ n ih =>
    intro s k
    rw [runPulseLoop]
    split
    · simp
    · split
      · simp
      · split
        · simp
        · split
          · simp
          · exact ih _ _

/-- The per-segment loop of `_do_run_profile` never touches `status` or
`driverEnabled`. -/
theorem runSegsLoop_inv (env : Env) (cfg : SliderCfg) (totalT : ℚ) :
    ∀ (l : List ((ℚ × ℚ) × (ℚ × ℚ))) (s : CtrlState) (k : Nat),
      (runSegsLoop env cfg totalT l s k).1.status = s.status ∧
      (runSegsLoop env cfg totalT l s k).1.driverEnabled = s.driverEnabled := by
  intro l
  induction l with
  | nil => intro s k; simp [runSegsLoop]
  | cons seg rest ih =>
    intro s k
    simp only [runSegsLoop]
    split
    · simp
    · exact ⟨((ih _ _).1).trans ((runPulseLoop_inv env cfg _ _ _ _).1),
            ((ih _ _).2).trans ((runPulseLoop_inv env cfg _ _ _ _).2)⟩

/-! ## Concrete configurations and environments used in closed evaluations -/

/-- A unit-scale config: one step per mm, 1 mm of travel. -/
def cfgUnit : SliderCfg :=
  { steps_per_rev := 1, microstep := 1, lead_mm_per_rev := 1, travel_mm := 1 }

/-- A start state strictly inside the travel range. -/
def sNear : CtrlState := { current_pos_mm := 3/10 }

/-- C1: claimed invariant `current_pos_mm ∈ [0, travel_mm]` after every
command and after every per-pulse update.  The code violates it:
`_relative_move` clamps its TARGET to `[0, travel_mm]` but, unlike
`_seek_endstop` and the run-profile loop, does not clamp the running
position, and `int(round(|distance| * steps_per_mm))` can round up past the
clamped target.  With `steps_per_mm = 1`, `travel_mm = 1`, start position
`0.3` and `Jog(distance=5, speed=30)`: target `1`, distance `0.7`, one pulse
of `1 mm`, final position `1.3 > travel_mm`, command ends `idle` with the
out-of-range position persisted. -/
theorem claim_C1_code_eval :
    (0 ≤ sNear.current_pos_mm ∧ sNear.current_pos_mm ≤ cfgUnit.travel_mm) ∧
    (do_jog benignEnv cfgUnit sNear 0 5 30).1.status = Status.idle ∧
    (do_jog benignEnv cfgUnit sNear 0 5 30).1.current_pos_mm = 13/10 ∧
    cfgUnit.travel_mm < (do_jog benignEnv cfgUnit sNear 0 5 30).1.current_pos_mm := by
  with_unfolding_all decide

/-- C10: a Jog with arbitrary distance and speed is silently truncated, never
rejected: with no cancellation and no endstop, the effective target is
`clamp(current_pos_mm + distance_mm, 0, travel_mm)`, the pulses emitted are
`int(round(|target - current| * steps_per_mm))` (zero when the truncated
distance is below `1e-6`), the position advances accordingly with no clamp,
and the command ends `idle` with `error` untouched. -/
theorem claim_C10 (env : Env) (cfg : SliderCfg) (s : CtrlState) (k : Nat)
    (distance_mm speed_mm_s : ℚ)
    (hstop : ∀ i, env.stopFlag i = false)
    (hmin : ∀ i, env.minPressed i = false)
    (hmax : ∀ i, env.maxPressed i = false) :
    (do_jog env cfg s k distance_mm speed_mm_s).1.status = Status.idle ∧
    (do_jog env cfg s k distance_mm speed_mm_s).1.driverEnabled = false ∧
    (do_jog env cfg s k distance_mm speed_mm_s).1.error = s.error ∧
    (do_jog env cfg s k distance_mm speed_mm_s).1.pulses = s.pulses +
      (if |clampQ (s.current_pos_mm + distance_mm) 0 cfg.travel_mm
            - s.current_pos_mm| < 1/1000000 then 0
       else (pyRound (|clampQ (s.current_pos_mm + distance_mm) 0 cfg.travel_mm
            - s.current_pos_mm| * cfg.steps_per_mm)).toNat) ∧
    (do_jog env cfg s k distance_mm speed_mm_s).1.current_pos_mm =
      s.current_pos_mm +
      (if |clampQ (s.current_pos_mm + distance_mm) 0 cfg.travel_mm
            - s.current_pos_mm| < 1/1000000 then 0
       else
        ((pyRound (|clampQ (s.current_pos_mm + distance_mm) 0 cfg.travel_mm
            - s.current_pos_mm| * cfg.steps_per_mm)).toNat : ℚ) *
          ((if 0 < clampQ (s.current_pos_mm + distance_mm) 0 cfg.travel_mm
              - s.current_pos_mm then (1:ℚ) else -1) / cfg.steps_per_mm)) := by
  unfold do_jog relative_move
  dsimp only
  by_cases hsmall : |clampQ (s.current_pos_mm + distance_mm) 0 cfg.travel_mm
      - s.current_pos_mm| < 1/1000000
  · rw [if_pos hsmall, if_pos hsmall, if_pos hsmall]
    exact ⟨rfl, rfl, rfl, by simp, by simp⟩
  · rw [if_neg hsmall, if_neg hsmall, if_neg hsmall]
    obtain ⟨h1, h2, h3, h4, h5⟩ := relMoveLoop_benign env cfg
      (decide (0 < clampQ (s.current_pos_mm + distance_mm) 0 cfg.travel_mm
        - s.current_pos_mm))
      hstop hmin hmax
      ((pyRound (|clampQ (s.current_pos_mm + distance_mm) 0 cfg.travel_mm
        - s.current_pos_mm| * cfg.steps_per_mm)).toNat)
      { s with status := Status.jogging, driverEnabled := true,
               dirPositive := decide (0 < clampQ (s.current_pos_mm + distance_mm) 0
                 cfg.travel_mm - s.current_pos_mm) } k
    exact ⟨rfl, rfl, h3, h1.trans (by simp), h2.trans (by simp)⟩

/-- C10 (witness): jog far beyond the travel bound from position 0 with the
unit config: one pulse, status `idle`. -/
theorem claim_C10_witness :
    (do_jog benignEnv cfgUnit ({} : CtrlState) 0 5 30).1.status = Status.idle ∧
    (do_jog benignEnv cfgUnit ({} : CtrlState) 0 5 30).1.pulses =
      ({} : CtrlState).pulses +
        (if |clampQ (({} : CtrlState).current_pos_mm + 5) 0 cfgUnit.travel_mm -
              ({} : CtrlState).current_pos_mm| < 1/1000000 then 0
         else (pyRound (|clampQ (({} : CtrlState).current_pos_mm + 5) 0
            cfgUnit.travel_mm - ({} : CtrlState).current_pos_mm| *
              cfgUnit.steps_per_mm)).toNat) := by
  have h := claim_C10 benignEnv cfgUnit ({} : CtrlState) 0 5 30
    (fun _ => rfl) (fun _ => rfl) (fun _ => rfl)
  exact ⟨h.1, h.2.2.2.1⟩

/-- An environment with the min endstop pressed from the start and the stop
event set from the 4th read (index 3) on — i.e. a `stop()` arriving after
Home's post-seek cancellation check. -/
def envLateStop : Env :=
  { stopFlag := fun i => decide (3 ≤ i)
    minPressed := fun _ => true
    maxPressed := fun _ => false
    deadlineHit := fun _ => false }

/-- An environment with the min endstop pressed from the start and no
cancellation. -/
def envMinPressed : Env :=
  { stopFlag := fun _ => false
    minPressed := fun _ => true
    maxPressed := fun _ => false
    deadlineHit := fun _ => false }

/-- C6 (counterexample): the claim says a Home cancelled at ANY point leaves
`homed` unchanged.  But `_do_home` checks the stop event only once, right
after the first seek; if the stop event becomes set after that check (here:
from the 4th read on, during the back-off move), the remaining loops break
immediately yet the tail of `_do_home` still sets `homed := true` and
`current_pos_mm := 0`.  Concretely: min endstop pressed from the start, stop
set from read index 3; the command consumes reads 0..4 and ends `idle` with
`homed = true` although it started with `homed = false` and was cancelled
mid-command. -/
theorem claim_C6_counterexample :
    envLateStop.stopFlag 0 = false ∧
    envLateStop.stopFlag 3 = true ∧
    ({} : CtrlState).homed = false ∧
    (do_home envLateStop cfgUnit ({} : CtrlState) 0).2 = 5 ∧
    (do_home envLateStop cfgUnit ({} : CtrlState) 0).1.homed = true ∧
    (do_home envLateStop cfgUnit ({} : CtrlState) 0).1.status = Status.idle := by
  with_unfolding_all decide

/-- C6 (amended): the cancellation behaviour of Home hinges on the single
stop-event check performed right after the first seek.  If that check reads
`true`, the command ends `idle` with the driver disabled and `homed`
unchanged; if it reads `false`, the command runs to its tail and sets
`homed := true` and `current_pos_mm := 0` (ending `idle`, driver disabled)
even if the stop event is set at every later read. -/
theorem claim_C6_amended (env : Env) (cfg : SliderCfg) (s : CtrlState) (k : Nat) :
    (env.stopFlag (homeSeekCheckIdx env cfg s k) = true →
      (do_home env cfg s k).1.homed = s.homed ∧
      (do_home env cfg s k).1.status = Status.idle ∧
      (do_home env cfg s k).1.driverEnabled = false) ∧
    (env.stopFlag (homeSeekCheckIdx env cfg s k) = false →
      (do_home env cfg s k).1.homed = true ∧
      (do_home env cfg s k).1.current_pos_mm = 0 ∧
      (do_home env cfg s k).1.status = Status.idle ∧
      (do_home env cfg s k).1.driverEnabled = false) := by
  constructor
  · intro h
    simp only [do_home, homeSeekCheckIdx] at h ⊢
    rw [if_pos h]
    refine ⟨?_, rfl, rfl⟩
    exact (seekLoop_inv env cfg true false _ _ _).1
  · intro h
    simp only [do_home, homeSeekCheckIdx] at h ⊢
    rw [if_neg (by simp [h])]
    exact ⟨rfl, rfl, rfl, rfl⟩

/-- C6 (witness): with the min endstop pressed from the start and no
cancellation, the post-seek check reads `false` and Home completes, homing
the axis at position 0. -/
theorem claim_C6_witness :
    envMinPressed.stopFlag
      (homeSeekCheckIdx envMinPressed cfgUnit ({} : CtrlState) 0) = false ∧
    (do_home envMinPressed cfgUnit ({} : CtrlState) 0).1.homed = true ∧
    (do_home envMinPressed cfgUnit ({} : CtrlState) 0).1.current_pos_mm = 0 ∧
    (do_home envMinPressed cfgUnit ({} : CtrlState) 0).1.status = Status.idle ∧
    (do_home envMinPressed cfgUnit ({} : CtrlState) 0).1.driverEnabled = false :=
  ⟨rfl, (claim_C6_amended envMinPressed cfgUnit ({} : CtrlState) 0).2 rfl⟩

/-- C8: the worker wraps every command body in `try`/`except`: when the body
raises, the handler records the message in `error`, sets status `error`,
disables the driver — and the worker loop then continues with the remaining
queued commands rather than terminating. -/
theorem claim_C8 (ex : Command → CtrlState → CtrlState × Option String)
    (s s1 : CtrlState) (c : Command) (rest : List Command) (msg : String)
    (h : ex c { s with error := none } = (s1, some msg)) :
    workerRun ex (c :: rest) s =
      workerRun ex rest
        { s1 with error := some msg, status := Status.err, driverEnabled := false } ∧
    (workerStep ex s c).error = some msg ∧
    (workerStep ex s c).status = Status.err ∧
    (workerStep ex s c).driverEnabled = false := by
  refine ⟨?_, ?_, ?_, ?_⟩ <;>
    simp only [workerRun, workerStep, List.foldl_cons, h]

/-- C8 (witness): a command body that raises `"boom"` leaves
`error = some "boom"`, status `error`, driver disabled, and the next queued
command still executes. -/
theorem claim_C8_witness :
    workerRun (fun _ st => (st, some "boom")) [Command.home, Command.home]
        ({} : CtrlState) =
      workerRun (fun _ st => (st, some "boom")) [Command.home]
        { ({} : CtrlState) with
          error := some "boom"
          status := Status.err
          driverEnabled := false } ∧
    (workerStep (fun _ st => (st, some "boom")) ({} : CtrlState)
      Command.home).error = some "boom" ∧
    (workerStep (fun _ st => (st, some "boom")) ({} : CtrlState)
      Command.home).status = Status.err ∧
    (workerStep (fun _ st => (st, some "boom")) ({} : CtrlState)
      Command.home).driverEnabled = false :=
  claim_C8 (fun _ st => (st, some "boom")) ({} : CtrlState)
    { ({} : CtrlState) with error := none } Command.home [Command.home] "boom" rfl

/-! ## C4: run-profile final state -/

/-- A valid two-keyframe unit profile whose single segment spans exactly one
planner step (`t = 0 → 0.02 s`, position `0 → 1 mm`). -/
def profUnit : MotionProfile :=
  { length_mm := 1
    keyframes := [ { t := 0, pos_mm := 0 }, { t := 1/50, pos_mm := 1 } ] }

/-- An environment that is benign throughout the run and whose stop event
becomes set only from read index 4 on — which, for `profUnit` on `cfgUnit`,
is exactly the final status check of `_do_run_profile` (a `stop()` landing
after the last segment finished but before the status line runs). -/
def envStopAtEnd : Env :=
  { stopFlag := fun i => decide (4 ≤ i)
    minPressed := fun _ => false
    maxPressed := fun _ => false
    deadlineHit := fun _ => false }

/-- C4 (counterexample): the claim says `progress = 1` EXACTLY when the run
completed uncancelled.  But the run loop records `progress = t1/total_t = 1`
when the last segment is processed, and cancellation is re-checked once more
afterwards to pick the final status; a `stop()` arriving in that window
yields status `stopped` (a cancelled run) WITH `progress = 1`.  Concretely:
`profUnit` on `cfgUnit`, stop set from read index 4 (the final check): the
run executes fully, ends `stopped`, and `progress = 1`. -/
theorem claim_C4_counterexample :
    ProfileValid profUnit ∧
    envStopAtEnd.stopFlag 3 = false ∧
    envStopAtEnd.stopFlag 4 = true ∧
    (do_run_profile envStopAtEnd cfgUnit ({} : CtrlState) 0 profUnit).2 = 5 ∧
    (do_run_profile envStopAtEnd cfgUnit ({} : CtrlState) 0 profUnit).1.status =
      Status.stopped ∧
    (do_run_profile envStopAtEnd cfgUnit ({} : CtrlState) 0 profUnit).1.progress
      = 1 := by
  with_unfolding_all decide

/-- C4 (amended): whenever `_do_run_profile` finishes, for EVERY timing /
endstop / cancellation history: `current_pos_mm` is snapped to
`clamp(positions[last], 0, travel_mm)`, the driver is disabled, the status is
`idle` or `stopped` according to the final read of the stop event
(`idle` whenever the stop event is never set), and `progress = 1` if the
status is `idle`; a run cancelled at the final check can also end with
`progress = 1` (see the counterexample), so `progress = 1` is necessary but
not sufficient for clean completion. -/
theorem claim_C4_amended (env : Env) (cfg : SliderCfg) (s : CtrlState) (k : Nat)
    (p : MotionProfile) :
    ((sampleProfile p (1/50)).2 ≠ [] →
      (do_run_profile env cfg s k p).1.current_pos_mm =
        clampQ ((sampleProfile p (1/50)).2.getD
          ((sampleProfile p (1/50)).2.length - 1) 0) 0 cfg.travel_mm) ∧
    (do_run_profile env cfg s k p).1.driverEnabled = false ∧
    ((do_run_profile env cfg s k p).1.status = Status.idle ∨
      (do_run_profile env cfg s k p).1.status = Status.stopped) ∧
    ((do_run_profile env cfg s k p).1.status = Status.idle →
      (do_run_profile env cfg s k p).1.progress = 1) ∧
    ((∀ i, env.stopFlag i = false) →
      (do_run_profile env cfg s k p).1.status = Status.idle) := by
  unfold do_run_profile
  dsimp only
  by_cases hstop : env.stopFlag (runSegsLoop env cfg
      (max (1/1000000) ((sampleProfile p (1/50)).1.getD
        ((sampleProfile p (1/50)).1.length - 1) 0))
      (((sampleProfile p (1/50)).1.zip (sampleProfile p (1/50)).2).zip
        (((sampleProfile p (1/50)).1.drop 1).zip ((sampleProfile p (1/50)).2.drop 1)))
      { s with status := Status.running, driverEnabled := true } k).2
  · rw [if_pos hstop]
    refine ⟨?_, rfl, Or.inr rfl, ?_, ?_⟩
    · intro hne
      have hemp : (sampleProfile p (1/50)).2.isEmpty = false :=
        List.isEmpty_eq_false.mpr hne
      show (if (sampleProfile p (1/50)).2.isEmpty = true then _ else _) = _
      rw [hemp, if_neg Bool.false_ne_true]
    · intro hcontra
      exact absurd hcontra (by simp)
    · intro hall
      exact absurd hstop (by simp [hall])
  · rw [if_neg hstop]
    refine ⟨?_, rfl, Or.inl rfl, ?_, ?_⟩
    · intro hne
      have hemp : (sampleProfile p (1/50)).2.isEmpty = false :=
        List.isEmpty_eq_false.mpr hne
      show (if (sampleProfile p (1/50)).2.isEmpty = true then _ else _) = _
      rw [hemp, if_neg Bool.false_ne_true]
    · intro _
      simp
    · intro _
      rfl

/-- C4 (witness): a fully benign run of `profUnit`: the snap lands on the
planner's last position `1`, status `idle`, `progress = 1`. -/
theorem claim_C4_witness :
    (sampleProfile profUnit (1/50)).2 ≠ [] ∧
    (∀ i, benignEnv.stopFlag i = false) ∧
    (do_run_profile benignEnv cfgUnit ({} : CtrlState) 0 profUnit).1.current_pos_mm
      = clampQ ((sampleProfile profUnit (1/50)).2.getD
          ((sampleProfile profUnit (1/50)).2.length - 1) 0) 0 cfgUnit.travel_mm ∧
    (do_run_profile benignEnv cfgUnit ({} : CtrlState) 0 profUnit).1.status =
      Status.idle ∧
    (do_run_profile benignEnv cfgUnit ({} : CtrlState) 0 profUnit).1.progress = 1 := by
  have h := claim_C4_amended benignEnv cfgUnit ({} : CtrlState) 0 profUnit
  have hne : (sampleProfile profUnit (1/50)).2 ≠ [] := by
    with_unfolding_all decide
  have hidle := h.2.2.2.2 (fun _ => rfl)
  exact ⟨hne, fun _ => rfl, h.1 hne, hidle, h.2.2.2.1 hidle⟩

/-! ## Validation lemmas (C7, C9) -/

/-- The running-`last_t` view of strict time increase that
`validate_keyframes`' loop enforces. -/
def chainFromT (t : ℚ) : List Keyframe → Prop
  | [] => True
  | k :: ks => t < k.t ∧ chainFromT k.t ks

theorem mem_insertByT {a k : Keyframe} : ∀ {l : List Keyframe},
    a ∈ insertByT k l ↔ a = k ∨ a ∈ l := by
  intro l
  induction l with
  | nil => simp [insertByT]
  | cons k' ks ih =>
    unfold insertByT
    split
    · simp
    · simp only [List.mem_cons, ih]
      tauto

theorem length_insertByT (k : Keyframe) : ∀ (l : List Keyframe),
    (insertByT k l).length = l.length + 1 := by
  intro l
  induction l with
  | nil => rfl
  | cons k' ks ih =>
    unfold insertByT
    split
    · simp
    · simp [ih]

theorem mem_foldl_insertByT {a : Keyframe} : ∀ (l acc : List Keyframe),
    a ∈ l.foldl (fun acc k => insertByT k acc) acc ↔ a ∈ acc ∨ a ∈ l := by
  intro l
  induction l with
  | nil => intro acc; simp
  | cons k ks ih =>
    intro acc
    simp only [List.foldl_cons, ih, mem_insertByT, List.mem_cons]
    tauto

theorem mem_sortByT {a : Keyframe} {l : List Keyframe} :
    a ∈ sortByT l ↔ a ∈ l := by
  unfold sortByT
  rw [mem_foldl_insertByT]
  simp

theorem length_foldl_insertByT : ∀ (l acc : List Keyframe),
    (l.foldl (fun acc k => insertByT k acc) acc).length = acc.length + l.length := by
  intro l
  induction l with
  | nil => intro acc; simp
  | cons k ks ih =>
    intro acc
    simp [List.foldl_cons, ih, length_insertByT]
    omega

theorem length_sortByT (l : List Keyframe) : (sortByT l).length = l.length := by
  unfold sortByT
  rw [length_foldl_insertByT]
  simp

theorem insertByT_of_forall {k : Keyframe} : ∀ {l : List Keyframe},
    (∀ k' ∈ l, ¬ k.t < k'.t) → insertByT k l = l ++ [k] := by
  intro l
  induction l with
  | nil => intro _; rfl
  | cons k' ks ih =>
    intro h
    unfold insertByT
    rw [if_neg (h k' (List.mem_cons_self k' ks))]
    simp only [List.cons_append, List.cons.injEq, true_and]
    exact ih fun x hx => h x (List.mem_cons_of_mem k' hx)

theorem foldl_insertByT_sorted : ∀ (l acc : List Keyframe),
    (∀ b ∈ l, ∀ a ∈ acc, ¬ b.t < a.t) →
    List.Pairwise (fun a b => a.t < b.t) l →
    l.foldl (fun acc k => insertByT k acc) acc = acc ++ l := by
  intro l
  induction l with
  | nil => intro acc _ _; simp
  | cons k ks ih =>
    intro acc hcross hpw
    rw [List.pairwise_cons] at hpw
    simp only [List.foldl_cons]
    rw [insertByT_of_forall (hcross k (List.mem_cons_self k ks))]
    rw [ih (acc ++ [k]) ?_ hpw.2]
    · simp
    · intro b hb a ha
      rcases List.mem_append.mp ha with ha' | ha'
      · exact hcross b (List.mem_cons_of_mem k hb) a ha'
      · have : a = k := by simpa using ha'
        subst this
        exact not_lt.mpr (le_of_lt (hpw.1 b hb))

/-- Sorting an already strictly sorted list is the identity. -/
theorem sortByT_of_pairwise {l : List Keyframe}
    (h : List.Pairwise (fun a b => a.t < b.t) l) : sortByT l = l := by
  unfold sortByT
  rw [foldl_insertByT_sorted l [] (by simp) h]
  simp

theorem checkKeyframes_none_iff (L : ℚ) : ∀ (l : List Keyframe) (t : ℚ),
    checkKeyframes L l t = none ↔
      (chainFromT t l ∧ ∀ k ∈ l, 0 ≤ k.pos_mm ∧ k.pos_mm ≤ L) := by
  intro l
  induction l with
  | nil => intro t; simp [checkKeyframes, chainFromT]
  | cons k ks ih =>
    intro t
    unfold checkKeyframes chainFromT
    split_ifs with h1 h2 h3
    · exact iff_of_false (by simp)
        (fun h => absurd h1 (not_le.mpr h.1.1))
    · exact iff_of_false (by simp)
        (fun h => absurd h2 (not_lt.mpr (h.2 k (List.mem_cons_self k ks)).1))
    · exact iff_of_false (by simp)
        (fun h => absurd h3 (not_lt.mpr (h.2 k (List.mem_cons_self k ks)).2))
    · rw [ih]
      simp only [List.forall_mem_cons]
      have ht : t < k.t := not_le.mp h1
      have hp0 : 0 ≤ k.pos_mm := not_lt.mp h2
      have hpL : k.pos_mm ≤ L := not_lt.mp h3
      tauto

theorem chainFromT_iff : ∀ (l : List Keyframe) (t : ℚ),
    chainFromT t l ↔
      (List.Chain' (fun a b => a.t < b.t) l ∧ ∀ h, l.head? = some h → t < h.t) := by
  intro l
  induction l with
  | nil => intro t; simp [chainFromT]
  | cons k ks ih =>
    intro t
    unfold chainFromT
    rw [ih k.t, List.chain'_cons']
    constructor
    · rintro ⟨ht, hc, hh⟩
      exact ⟨⟨hh, hc⟩, fun h hh' => by simpa [← Option.some_inj.mp hh'] using ht⟩
    · rintro ⟨⟨hh, hc⟩, hhd⟩
      exact ⟨hhd k rfl, hc, hh⟩

theorem chainFromT_pairwise : ∀ (l : List Keyframe) (t : ℚ),
    chainFromT t l →
      List.Pairwise (fun a b => a.t < b.t) l ∧ ∀ k ∈ l, t < k.t := by
  intro l
  induction l with
  | nil => intro t _; simp
  | cons k ks ih =>
    intro t h
    obtain ⟨ht, hrest⟩ := h
    obtain ⟨hpw, hall⟩ := ih k.t hrest
    refine ⟨List.pairwise_cons.mpr ⟨hall, hpw⟩, ?_⟩
    intro a ha
    rcases List.mem_cons.mp ha with rfl | ha'
    · exact ht
    · exact lt_trans ht (hall a ha')

theorem validateEase_false_iff (e : Ease) :
    validateEase e = false ↔
      (e.kind = EaseKind.cubicBezier ∧ ∀ l, e.p = some l → l.length ≠ 4) := by
  cases e with
  | mk kind p =>
    cases kind
    · simp [validateEase]
    · cases p with
      | none => simp [validateEase]
      | some l => simp [validateEase]

theorem head?_memK : ∀ {l : List Keyframe} {h : Keyframe},
    l.head? = some h → h ∈ l := by
  intro l h hl
  cases l with
  | nil => cases hl
  | cons a as =>
    have : a = h := Option.some_inj.mp hl
    subst this
    exact List.mem_cons_self a as

/-- The keyframe-loop check on the sorted list succeeds iff the sorted times
are an adjacent strict chain and all positions (of the original list) lie in
`[0, length_mm]` — given the field constraint `t ≥ 0` (so the initial
`last_t = -1` sentinel never fires). -/
theorem check_sorted_iff (p : MotionProfile)
    (hT : ∀ k ∈ p.keyframes, 0 ≤ k.t) :
    checkKeyframes p.length_mm (sortByT p.keyframes) (-1) = none ↔
      (List.Chain' (fun a b => a.t < b.t) (sortByT p.keyframes) ∧
        ∀ k ∈ p.keyframes, 0 ≤ k.pos_mm ∧ k.pos_mm ≤ p.length_mm) := by
  rw [checkKeyframes_none_iff, chainFromT_iff]
  constructor
  · rintro ⟨⟨hc, _⟩, hpos⟩
    exact ⟨hc, fun k hk => hpos k (mem_sortByT.mpr hk)⟩
  · rintro ⟨hc, hpos⟩
    refine ⟨⟨hc, ?_⟩, fun k hk => hpos k (mem_sortByT.mp hk)⟩
    intro h hh
    have hmem : h ∈ p.keyframes := mem_sortByT.mp (head?_memK hh)
    have := hT h hmem
    linarith

/-- C7: with the pydantic field constraints met (`length_mm > 0`, positive
speed/accel limits, keyframe times `≥ 0`), constructing a `MotionProfile`
fails exactly when: fewer than two keyframes; or, after the stable sort by
`t`, some keyframe's time is not strictly greater than its predecessor's; or
some position lies outside `[0, length_mm]`; or a cubic-bezier ease does not
carry exactly four control values.  A profile violating none of these is
accepted. -/
theorem claim_C7 (p : MotionProfile) (hL : 0 < p.length_mm)
    (hS : 0 < p.max_speed_mm_s) (hA : 0 < p.max_accel_mm_s2)
    (hT : ∀ k ∈ p.keyframes, 0 ≤ k.t) :
    isOkE (validateProfile p) = false ↔
      (p.keyframes.length < 2 ∨
       ¬ List.Chain' (fun a b => a.t < b.t) (sortByT p.keyframes) ∨
       (∃ k ∈ p.keyframes, k.pos_mm < 0 ∨ p.length_mm < k.pos_mm) ∨
       (∃ k ∈ p.keyframes, k.ease.kind = EaseKind.cubicBezier ∧
          ∀ l, k.ease.p = some l → l.length ≠ 4)) := by
  have hDiff : (p.keyframes.all (fun k => validateEase k.ease) = true) ↔
      ¬ (∃ k ∈ p.keyframes, k.ease.kind = EaseKind.cubicBezier ∧
          ∀ l, k.ease.p = some l → l.length ≠ 4) := by
    rw [List.all_eq_true]
    constructor
    · intro hall hD
      obtain ⟨k, hk, hbad⟩ := hD
      have h2 : validateEase k.ease = false := (validateEase_false_iff k.ease).mpr hbad
      have h1 := hall k hk
      rw [h2] at h1
      exact Bool.false_ne_true h1
    · intro hnd k hk
      cases hv : validateEase k.ease
      · exact absurd ⟨k, hk, (validateEase_false_iff k.ease).mp hv⟩ hnd
      · rfl
  unfold validateProfile
  rw [if_neg (not_le.mpr hL), if_neg (not_le.mpr hS), if_neg (not_le.mpr hA),
    if_neg (not_not_intro (by
      rw [List.all_eq_true]
      intro k hk
      exact decide_eq_true (hT k hk)))]
  by_cases hDb : p.keyframes.all (fun k => validateEase k.ease) = true
  · rw [if_neg (not_not_intro hDb)]
    by_cases hlen : p.keyframes.length < 2
    · rw [if_pos hlen]
      exact iff_of_true rfl (Or.inl hlen)
    · rw [if_neg hlen]
      rcases hc : checkKeyframes p.length_mm (sortByT p.keyframes) (-1) with _ | msg
      · have hok := (check_sorted_iff p hT).mp hc
        refine iff_of_false (by simp [isOkE, hc]) ?_
        rintro (h | h | h | h)
        · exact hlen h
        · exact h hok.1
        · obtain ⟨k, hk, hbad⟩ := h
          rcases hbad with hb | hb
          · exact absurd (hok.2 k hk).1 (not_le.mpr hb)
          · exact absurd (hok.2 k hk).2 (not_le.mpr hb)
        · exact hDiff.mp hDb h
      · refine iff_of_true (by simp [isOkE, hc]) ?_
        have hnone : ¬ checkKeyframes p.length_mm (sortByT p.keyframes) (-1) = none := by
          rw [hc]; simp
        rw [check_sorted_iff p hT, not_and_or] at hnone
        rcases hnone with h | h
        · exact Or.inr (Or.inl h)
        · refine Or.inr (Or.inr (Or.inl ?_))
          by_contra hno
          apply h
          intro k hk
          have hkno := fun hcond => hno ⟨k, hk, hcond⟩
          exact ⟨not_lt.mp (fun hlt => hkno (Or.inl hlt)),
                 not_lt.mp (fun hlt => hkno (Or.inr hlt))⟩
  · rw [if_pos hDb]
    refine iff_of_true rfl (Or.inr (Or.inr (Or.inr ?_)))
    by_contra hno
    exact hDb (hDiff.mpr hno)

/-- A concrete valid two-keyframe linear profile (scenario S1's shape). -/
def profW : MotionProfile :=
  { length_mm := 100
    keyframes := [ { t := 0, pos_mm := 0 }, { t := 2, pos_mm := 100 } ] }

/-- C7 (witness): the acceptance criterion applied to a concrete valid
profile (accepted) — together with the S3 scenario: keyframes at
`t = [0, 1, 1]` are rejected. -/
theorem claim_C7_witness :
    ((0:ℚ) < profW.length_mm ∧ (∀ k ∈ profW.keyframes, 0 ≤ k.t)) ∧
    (isOkE (validateProfile profW) = false ↔
      (profW.keyframes.length < 2 ∨
       ¬ List.Chain' (fun a b => a.t < b.t) (sortByT profW.keyframes) ∨
       (∃ k ∈ profW.keyframes, k.pos_mm < 0 ∨ profW.length_mm < k.pos_mm) ∨
       (∃ k ∈ profW.keyframes, k.ease.kind = EaseKind.cubicBezier ∧
          ∀ l, k.ease.p = some l → l.length ≠ 4))) :=
  ⟨⟨by norm_num [profW], by decide⟩,
   claim_C7 profW (by norm_num [profW]) (by norm_num [profW])
     (by norm_num [profW]) (by decide)⟩

/-- C9: revalidating a validated profile written out field-for-field (the
JSON dump transports every field verbatim in this exact-number model) yields
the same profile: the keyframes are already sorted, so the stable sort is the
identity and every check passes again. -/
theorem claim_C9 (q p : MotionProfile) (h : validateProfile q = Except.ok p) :
    validateProfile (modelDump p) = Except.ok p := by
  unfold validateProfile at h
  split_ifs at h with h1 h2 h3 h4 h5 h6 <;>
    try exact Except.noConfusion h
  dsimp only at h
  rcases hc : checkKeyframes q.length_mm (sortByT q.keyframes) (-1) with _ | msg
  · rw [hc] at h
    injection h with hp
    subst hp
    have hsorted := (checkKeyframes_none_iff q.length_mm (sortByT q.keyframes) (-1)).mp hc
    have hpw := (chainFromT_pairwise _ _ hsorted.1).1
    show validateProfile
      { q with keyframes := sortByT q.keyframes } =
        Except.ok { q with keyframes := sortByT q.keyframes }
    unfold validateProfile
    dsimp only
    rw [if_neg h1, if_neg h2, if_neg h3]
    rw [if_neg (not_not_intro (by
      rw [List.all_eq_true]
      intro k hk
      rw [List.all_eq_true] at h4
      exact h4 k (mem_sortByT.mp hk)))]
    rw [if_neg (not_not_intro (by
      rw [List.all_eq_true]
      intro k hk
      rw [List.all_eq_true] at h5
      exact h5 k (mem_sortByT.mp hk)))]
    rw [if_neg (by rw [length_sortByT]; exact h6)]
    rw [sortByT_of_pairwise hpw, hc]
  · rw [hc] at h
    exact Except.noConfusion h

instance : DecidableEq (Except String MotionProfile)
  | Except.ok x, Except.ok y =>
    if h : x = y then isTrue (h ▸ rfl) else isFalse (fun hc => h (by injection hc))
  | Except.error e, Except.error f =>
    if h : e = f then isTrue (h ▸ rfl) else isFalse (fun hc => h (by injection hc))
  | Except.ok _, Except.error _ => isFalse (fun hc => Except.noConfusion hc)
  | Except.error _, Except.ok _ => isFalse (fun hc => Except.noConfusion hc)

/-- C9 (witness): the round-trip at a concrete validated profile. -/
theorem claim_C9_witness :
    validateProfile profW = Except.ok profW ∧
    validateProfile (modelDump profW) = Except.ok profW :=
  ⟨by decide, claim_C9 profW profW (by decide)⟩

/-! ## Planner lemmas (C2, C3) -/

theorem getLastD_of_getLast? {α : Type} {l : List α} {x : α} (d : α)
    (h : l.getLast? = some x) : l.getD (l.length - 1) d = x := by
  rw [List.getD_eq_getElem?_getD, ← List.getLast?_eq_getElem?, h, Option.getD_some]

theorem getD_concat_last {α : Type} (l : List α) (x d : α) :
    (l ++ [x]).getD ((l ++ [x]).length - 1) d = x :=
  getLastD_of_getLast? d (List.getLast?_concat l)

theorem getLast?_cons_of_ne {α : Type} (a : α) {l : List α} (h : l ≠ []) :
    (a :: l).getLast? = l.getLast? := by
  cases l with
  | nil => exact absurd rfl h
  | cons b m => simp

theorem getD_mem' {α : Type} {l : List α} {i : Nat} (d : α) (h : i < l.length) :
    l.getD i d ∈ l := by
  rw [List.getD_eq_getElem?_getD, List.getElem?_eq_getElem h, Option.getD_some]
  exact List.get_mem l i h

/-- Strict pairwise order transfers to `getD` indexing. -/
theorem pairwise_getD_lt {kfs : List Keyframe}
    (hpw : List.Pairwise (fun a b => a.t < b.t) kfs) {a b : Nat} (d : Keyframe)
    (hab : a < b) (hb : b < kfs.length) :
    (kfs.getD a d).t < (kfs.getD b d).t := by
  have ha : a < kfs.length := lt_trans hab hb
  have h := List.pairwise_iff_get.mp hpw ⟨a, ha⟩ ⟨b, hb⟩ hab
  rw [List.getD_eq_getElem?_getD, List.getElem?_eq_getElem ha, Option.getD_some,
    List.getD_eq_getElem?_getD, List.getElem?_eq_getElem hb, Option.getD_some]
  simpa using h

theorem advanceSeg_ge (kfs : List Keyframe) (t : ℚ) :
    ∀ (fuel i : Nat), i ≤ advanceSeg kfs t fuel i := by
  intro fuel
  induction fuel with
  | zero => intro i; simp [advanceSeg]
  | succ fuel ih =>
    intro i
    unfold advanceSeg
    split
    · exact le_trans (Nat.le_succ i) (ih (i + 1))
    · exact le_refl i

theorem advanceSeg_le (kfs : List Keyframe) (t : ℚ) :
    ∀ (fuel i : Nat), i + 2 ≤ kfs.length → advanceSeg kfs t fuel i + 2 ≤ kfs.length := by
  intro fuel
  induction fuel with
  | zero => intro i h; simpa [advanceSeg] using h
  | succ fuel ih =>
    intro i h
    unfold advanceSeg
    split
    · next hcond => exact ih (i + 1) hcond.1
    · exact h

/-- With enough fuel, at a time at or past the last keyframe the segment
index lands on the final segment. -/
theorem advanceSeg_at_end {kfs : List Keyframe}
    (hpw : List.Pairwise (fun a b => a.t < b.t) kfs) {t : ℚ}
    (ht : (kfs.getD (kfs.length - 1) dfltKeyframe).t ≤ t) :
    ∀ (fuel j : Nat), j + 2 ≤ kfs.length → kfs.length ≤ fuel + j + 2 →
      advanceSeg kfs t fuel j = kfs.length - 2 := by
  intro fuel
  induction fuel with
  | zero =>
    intro j hj hfuel
    unfold advanceSeg
    omega
  | succ fuel ih =>
    intro j hj hfuel
    unfold advanceSeg
    by_cases hlt : j + 2 < kfs.length
    · rw [if_pos ?_]
      · exact ih (j + 1) (by omega) (by omega)
      · refine ⟨hlt, lt_of_lt_of_le ?_ ht⟩
        exact pairwise_getD_lt hpw dfltKeyframe (by omega) (by omega)
    · rw [if_neg (by tauto)]
      omega

theorem easeApply_one (e : Ease) : easeApply e 1 = 1 := by
  unfold easeApply
  cases e.kind
  · simp [linearEase]
  · rcases e.p with _ | l
    · simp [linearEase]
    · rcases l with _ | ⟨a, _ | ⟨b, _ | ⟨c, _ | ⟨d, _ | e⟩⟩⟩⟩ <;>
        simp [linearEase, bezierSample]

/-- At a time at or past the last keyframe, the emitted position on the final
segment is exactly the last keyframe's position. -/
theorem emitPos_at_end {kfs : List Keyframe}
    (hpw : List.Pairwise (fun a b => a.t < b.t) kfs) (hlen : 2 ≤ kfs.length)
    {t : ℚ} (ht : (kfs.getD (kfs.length - 1) dfltKeyframe).t ≤ t) :
    emitPos kfs (kfs.length - 2) t =
      (kfs.getD (kfs.length - 1) dfltKeyframe).pos_mm := by
  unfold emitPos
  have hidx : kfs.length - 2 + 1 = kfs.length - 1 := by omega
  rw [hidx]
  dsimp only
  have hlt : (kfs.getD (kfs.length - 2) dfltKeyframe).t <
      (kfs.getD (kfs.length - 1) dfltKeyframe).t :=
    pairwise_getD_lt hpw dfltKeyframe (by omega) (by omega)
  have hne : (kfs.getD (kfs.length - 1) dfltKeyframe).t ≠
      (kfs.getD (kfs.length - 2) dfltKeyframe).t := ne_of_gt hlt
  rw [if_neg hne]
  have hden : (0:ℚ) < (kfs.getD (kfs.length - 1) dfltKeyframe).t -
      (kfs.getD (kfs.length - 2) dfltKeyframe).t := by linarith
  have hu1 : 1 ≤ (t - (kfs.getD (kfs.length - 2) dfltKeyframe).t) /
      ((kfs.getD (kfs.length - 1) dfltKeyframe).t -
        (kfs.getD (kfs.length - 2) dfltKeyframe).t) := by
    rw [le_div_iff hden]
    linarith
  rw [if_neg (not_lt.mpr (by linarith :
    (0:ℚ) ≤ (t - (kfs.getD (kfs.length - 2) dfltKeyframe).t) /
      ((kfs.getD (kfs.length - 1) dfltKeyframe).t -
        (kfs.getD (kfs.length - 2) dfltKeyframe).t)))]
  by_cases hgt : 1 < (t - (kfs.getD (kfs.length - 2) dfltKeyframe).t) /
      ((kfs.getD (kfs.length - 1) dfltKeyframe).t -
        (kfs.getD (kfs.length - 2) dfltKeyframe).t)
  · rw [if_pos hgt, easeApply_one]
    ring
  · rw [if_neg hgt]
    have : (t - (kfs.getD (kfs.length - 2) dfltKeyframe).t) /
        ((kfs.getD (kfs.length - 1) dfltKeyframe).t -
          (kfs.getD (kfs.length - 2) dfltKeyframe).t) = 1 :=
      le_antisymm (not_lt.mp hgt) hu1
    rw [this, easeApply_one]
    ring

theorem sampleGo_len (kfs : List Keyframe) (totalT dt : ℚ) :
    ∀ (fuel : Nat) (t : ℚ) (i : Nat),
      (sampleGo kfs totalT dt fuel t i).1.length =
        (sampleGo kfs totalT dt fuel t i).2.length := by
  intro fuel
  induction fuel with
  | zero => intro t i; rfl
  | succ fuel ih =>
    intro t i
    unfold sampleGo
    split
    · simp [ih]
    · rfl

theorem sampleGo_chain (kfs : List Keyframe) (totalT dt : ℚ) (hdt : 0 < dt) :
    ∀ (fuel : Nat) (t : ℚ) (i : Nat),
      List.Chain' (fun a b => a < b) (sampleGo kfs totalT dt fuel t i).1 ∧
      ∀ x ∈ (sampleGo kfs totalT dt fuel t i).1, t ≤ x := by
  intro fuel
  induction fuel with
  | zero => intro t i; simp [sampleGo]
  | succ fuel ih =>
    intro t i
    unfold sampleGo
    split
    · obtain ⟨hc, hall⟩ := ih (t + dt) (advanceSeg kfs t kfs.length i)
      constructor
      · refine List.chain'_cons'.mpr ⟨?_, hc⟩
        intro y hy
        have hmem := List.mem_of_mem_head? hy
        have := hall y hmem
        linarith
      · intro x hx
        rcases List.mem_cons.mp hx with rfl | hx'
        · exact le_refl x
        · have := hall x hx'
          linarith
    · simp

theorem sampleGo_ne_nil (kfs : List Keyframe) (totalT dt : ℚ)
    {fuel : Nat} {t : ℚ} (i : Nat) (hfuel : 0 < fuel)
    (ht : t ≤ totalT + 1/1000000000) :
    (sampleGo kfs totalT dt fuel t i).1 ≠ [] := by
  cases fuel with
  | zero => omega
  | succ fuel =>
    unfold sampleGo
    rw [if_pos ht]
    simp

/-- The last emitted pair of the sampling loop: the position is the emission
at the last emitted time, computed in the segment the loop advanced to. -/
theorem sampleGo_last (kfs : List Keyframe) (totalT dt : ℚ) :
    ∀ (fuel : Nat) (t : ℚ) (i : Nat),
      (sampleGo kfs totalT dt fuel t i).1 = [] ∨
      ∃ tl j,
        (sampleGo kfs totalT dt fuel t i).1.getLast? = some tl ∧
        (sampleGo kfs totalT dt fuel t i).2.getLast? =
          some (emitPos kfs (advanceSeg kfs tl kfs.length j) tl) ∧
        i ≤ j ∧ (i + 2 ≤ kfs.length → j + 2 ≤ kfs.length) := by
  intro fuel
  induction fuel with
  | zero => intro t i; exact Or.inl rfl
  | succ fuel ih =>
    intro t i
    unfold sampleGo
    split
    · refine Or.inr ?_
      rcases ih (t + dt) (advanceSeg kfs t kfs.length i) with hnil | ⟨tl, j, h1, h2, hij, hbd⟩
      · have hnil2 : (sampleGo kfs totalT dt fuel (t + dt)
            (advanceSeg kfs t kfs.length i)).2 = [] := by
          have := sampleGo_len kfs totalT dt fuel (t + dt)
            (advanceSeg kfs t kfs.length i)
          rw [hnil] at this
          exact List.length_eq_zero.mp this.symm
        refine ⟨t, i, ?_, ?_, le_refl i, fun h => h⟩
        · simp [hnil]
        · simp [hnil2]
      · have hnn : (sampleGo kfs totalT dt fuel (t + dt)
            (advanceSeg kfs t kfs.length i)).1 ≠ [] := by
          intro hc
          rw [hc] at h1
          exact Option.noConfusion h1
        have hnn2 : (sampleGo kfs totalT dt fuel (t + dt)
            (advanceSeg kfs t kfs.length i)).2 ≠ [] := by
          intro hc
          rw [hc] at h2
          exact Option.noConfusion h2
        refine ⟨tl, j, ?_, ?_, le_trans (advanceSeg_ge kfs t kfs.length i) hij,
          fun h => hbd (advanceSeg_le kfs t kfs.length i h)⟩
        · rw [getLast?_cons_of_ne _ hnn]
          exact h1
        · rw [getLast?_cons_of_ne _ hnn2]
          exact h2
    · exact Or.inl rfl

/-- C2: for a valid profile and `dt > 0`, `sample_profile` returns lists of
equal length, strictly increasing times, the last time at or past the last
keyframe's time, and the last position exactly the last keyframe's
position. -/
theorem claim_C2 (p : MotionProfile) (dt : ℚ) (hv : ProfileValid p) (hdt : 0 < dt) :
    (sampleProfile p dt).1.length = (sampleProfile p dt).2.length ∧
    List.Chain' (fun a b => a < b) (sampleProfile p dt).1 ∧
    (sampleProfile p dt).1 ≠ [] ∧
    (p.keyframes.getD (p.keyframes.length - 1) dfltKeyframe).t ≤
      (sampleProfile p dt).1.getD ((sampleProfile p dt).1.length - 1) 0 ∧
    (sampleProfile p dt).2.getD ((sampleProfile p dt).2.length - 1) 0 =
      (p.keyframes.getD (p.keyframes.length - 1) dfltKeyframe).pos_mm := by
  obtain ⟨hlen2, hpw, hbounds, _, _⟩ := hv
  have h0lt : (p.keyframes.getD 0 dfltKeyframe).t <
      (p.keyframes.getD (p.keyframes.length - 1) dfltKeyframe).t :=
    pairwise_getD_lt hpw dfltKeyframe (by omega) (by omega)
  have ht0 : 0 ≤ (p.keyframes.getD 0 dfltKeyframe).t :=
    (hbounds _ (getD_mem' dfltKeyframe (by omega))).1
  have hlastpos : 0 < (p.keyframes.getD (p.keyframes.length - 1) dfltKeyframe).t := by
    linarith
  unfold sampleProfile
  dsimp only
  rw [if_neg (not_le.mpr hlastpos)]
  have hfloor : (0:ℤ) ≤
      (((p.keyframes.getD (p.keyframes.length - 1) dfltKeyframe).t + 1/1000000000)
        / dt).floor :=
    Rat.le_floor.mpr (by push_cast; positivity)
  have hfuel : 0 <
      ((((p.keyframes.getD (p.keyframes.length - 1) dfltKeyframe).t + 1/1000000000)
        / dt).floor + 2).toNat := by omega
  have hne : (sampleGo p.keyframes
      (p.keyframes.getD (p.keyframes.length - 1) dfltKeyframe).t dt
      ((((p.keyframes.getD (p.keyframes.length - 1) dfltKeyframe).t + 1/1000000000)
        / dt).floor + 2).toNat 0 0).1 ≠ [] :=
    sampleGo_ne_nil _ _ _ _ hfuel (by linarith)
  have hne2 : (sampleGo p.keyframes
      (p.keyframes.getD (p.keyframes.length - 1) dfltKeyframe).t dt
      ((((p.keyframes.getD (p.keyframes.length - 1) dfltKeyframe).t + 1/1000000000)
        / dt).floor + 2).toNat 0 0).2 ≠ [] := by
    intro hc
    apply hne
    have := sampleGo_len p.keyframes
      (p.keyframes.getD (p.keyframes.length - 1) dfltKeyframe).t dt
      ((((p.keyframes.getD (p.keyframes.length - 1) dfltKeyframe).t + 1/1000000000)
        / dt).floor + 2).toNat 0 0
    rw [hc] at this
    exact List.length_eq_zero.mp this
  obtain ⟨hchain, _⟩ := sampleGo_chain p.keyframes
      (p.keyframes.getD (p.keyframes.length - 1) dfltKeyframe).t dt hdt
      ((((p.keyframes.getD (p.keyframes.length - 1) dfltKeyframe).t + 1/1000000000)
        / dt).floor + 2).toNat 0 0
  split
  case isTrue happ =>
    rcases hgl : (sampleGo p.keyframes
        (p.keyframes.getD (p.keyframes.length - 1) dfltKeyframe).t dt
        ((((p.keyframes.getD (p.keyframes.length - 1) dfltKeyframe).t + 1/1000000000)
          / dt).floor + 2).toNat 0 0).1.getLast? with _ | tl
    · exact absurd (List.getLast?_eq_none_iff.mp hgl) hne
    · refine ⟨?_, ?_, by simp, ?_, ?_⟩
      · simp [sampleGo_len]
      · refine List.chain'_append.mpr ⟨hchain, List.chain'_singleton _, ?_⟩
        intro x hx y hy
        simp only [List.head?_cons, Option.mem_def, Option.some_inj] at hy
        rw [hgl, Option.mem_def, Option.some_inj] at hx
        subst hx
        subst hy
        rw [getLastD_of_getLast? 0 hgl] at happ
        exact happ
      · rw [getD_concat_last]
      · rw [getD_concat_last]
  case isFalse happ =>
    rcases sampleGo_last p.keyframes
        (p.keyframes.getD (p.keyframes.length - 1) dfltKeyframe).t dt
        ((((p.keyframes.getD (p.keyframes.length - 1) dfltKeyframe).t + 1/1000000000)
          / dt).floor + 2).toNat 0 0 with hnil | ⟨tl, j, h1, h2, _, hbd⟩
    · exact absurd hnil hne
    · have htl : (sampleGo p.keyframes
          (p.keyframes.getD (p.keyframes.length - 1) dfltKeyframe).t dt
          ((((p.keyframes.getD (p.keyframes.length - 1) dfltKeyframe).t + 1/1000000000)
            / dt).floor + 2).toNat 0 0).1.getD
          ((sampleGo p.keyframes
            (p.keyframes.getD (p.keyframes.length - 1) dfltKeyframe).t dt
            ((((p.keyframes.getD (p.keyframes.length - 1) dfltKeyframe).t + 1/1000000000)
              / dt).floor + 2).toNat 0 0).1.length - 1) 0 = tl :=
        getLastD_of_getLast? 0 h1
      have hlast_le : (p.keyframes.getD (p.keyframes.length - 1) dfltKeyframe).t ≤ tl := by
        rw [htl] at happ
        exact not_lt.mp happ
      have hadv : advanceSeg p.keyframes tl p.keyframes.length j =
          p.keyframes.length - 2 :=
        advanceSeg_at_end hpw hlast_le p.keyframes.length j
          (hbd (by omega)) (by omega)
      refine ⟨sampleGo_len _ _ _ _ _ _, hchain, hne, ?_, ?_⟩
      · rw [htl]
        exact hlast_le
      · rw [getLastD_of_getLast? 0 h2, hadv, emitPos_at_end hpw hlen2 hlast_le]

/-- C2 (witness): the guarantees at a concrete valid profile and `dt = 1/2`. -/
theorem claim_C2_witness :
    ProfileValid profW ∧ (0:ℚ) < 1/2 ∧
    ((sampleProfile profW (1/2)).1.length = (sampleProfile profW (1/2)).2.length ∧
     List.Chain' (fun a b => a < b) (sampleProfile profW (1/2)).1 ∧
     (sampleProfile profW (1/2)).1 ≠ [] ∧
     (profW.keyframes.getD (profW.keyframes.length - 1) dfltKeyframe).t ≤
       (sampleProfile profW (1/2)).1.getD
         ((sampleProfile profW (1/2)).1.length - 1) 0 ∧
     (sampleProfile profW (1/2)).2.getD
         ((sampleProfile profW (1/2)).2.length - 1) 0 =
       (profW.keyframes.getD (profW.keyframes.length - 1) dfltKeyframe).pos_mm) :=
  ⟨by decide, by norm_num, claim_C2 profW (1/2) (by decide) (by norm_num)⟩

/-! ## C3: positions within segment bounds -/

/-- An easing whose sampled value always lies in `[0, 1]`.  `linear`
qualifies; an accepted cubic-bezier need not (its y-control values are
unconstrained). -/
def EaseBounded (e : Ease) : Prop :=
  ∀ u : ℚ, 0 ≤ easeApply e u ∧ easeApply e u ≤ 1

theorem linearEase_bounds (u : ℚ) : 0 ≤ linearEase u ∧ linearEase u ≤ 1 := by
  unfold linearEase
  split_ifs with h1 h2
  · norm_num
  · norm_num
  · constructor <;> linarith [not_le.mp h1, not_le.mp h2]

theorem easeBounded_linear : EaseBounded { kind := EaseKind.linear, p := none } :=
  fun u => linearEase_bounds u

/-- A convex-style combination `a + (b - a) * f` with `f ∈ [0, 1]` lies
between `a` and `b`. -/
theorem between_of_unit (a b f : ℚ) (h0 : 0 ≤ f) (h1 : f ≤ 1) :
    min a b ≤ a + (b - a) * f ∧ a + (b - a) * f ≤ max a b := by
  rcases le_total a b with hab | hab
  · rw [min_eq_left hab, max_eq_right hab]
    constructor <;> nlinarith
  · rw [min_eq_right hab, max_eq_left hab]
    constructor <;> nlinarith

/-- Every position the sampling loop emits is a bounded-easing combination of
the two endpoint positions of some adjacent keyframe pair. -/
theorem sampleGo_pos_mem {kfs : List Keyframe} (totalT dt : ℚ)
    (hE : ∀ k ∈ kfs, EaseBounded k.ease) :
    ∀ (fuel : Nat) (t : ℚ) (i : Nat), i + 2 ≤ kfs.length →
      ∀ y ∈ (sampleGo kfs totalT dt fuel t i).2,
        ∃ i', i' + 2 ≤ kfs.length ∧
          min (kfs.getD i' dfltKeyframe).pos_mm
              (kfs.getD (i' + 1) dfltKeyframe).pos_mm ≤ y ∧
          y ≤ max (kfs.getD i' dfltKeyframe).pos_mm
              (kfs.getD (i' + 1) dfltKeyframe).pos_mm := by
  intro fuel
  induction fuel with
  | zero => intro t i _ y hy; simp [sampleGo] at hy
  | succ fuel ih =>
    intro t i hi y hy
    rw [sampleGo] at hy
    split at hy
    · rcases List.mem_cons.mp hy with rfl | hy'
      · refine ⟨advanceSeg kfs t kfs.length i, advanceSeg_le kfs t kfs.length i hi, ?_⟩
        unfold emitPos
        dsimp only
        have hmem : kfs.getD (advanceSeg kfs t kfs.length i + 1) dfltKeyframe ∈ kfs :=
          getD_mem' dfltKeyframe (by
            have := advanceSeg_le kfs t kfs.length i hi
            omega)
        have hb := hE _ hmem
        exact between_of_unit _ _ _ (hb _).1 (hb _).2
      · exact ih (t + dt) (advanceSeg kfs t kfs.length i)
          (advanceSeg_le kfs t kfs.length i hi) y hy'
    · simp at hy

/-- A cubic-bezier ease the validator accepts (four control values) whose
y-controls lie far outside `[0, 1]`. -/
def cxEaseB : Ease := { kind := EaseKind.cubicBezier, p := some [1/2, 5, 1/2, 5] }

/-- An accepted profile using `cxEaseB` on its single segment. -/
def cxProf3 : MotionProfile :=
  { length_mm := 100
    keyframes := [ { t := 0, pos_mm := 0 },
                   { t := 1, pos_mm := 100, ease := cxEaseB } ] }

set_option maxRecDepth 4000 in
/-- C3 (counterexample): the claim extends the segment-hull bound to EVERY
cubic-bezier the validator accepts — but the validator constrains only the
count of control values, not their range.  The accepted profile below (length
100, one segment 0 → 100 eased by `cubic-bezier(0.5, 5, 0.5, 5)`) emits
position `387.5` at `t = 0.5`, far outside `[min, max] = [0, 100]` and
outside `[0, length_mm]`. -/
theorem claim_C3_counterexample :
    ProfileValid cxProf3 ∧
    validateProfile cxProf3 = Except.ok cxProf3 ∧
    (0:ℚ) < 1/2 ∧
    (775/2 : ℚ) ∈ (sampleProfile cxProf3 (1/2)).2 ∧
    cxProf3.length_mm < 775/2 := by
  with_unfolding_all decide

/-- C3 (amended): for a valid profile, `dt > 0`, and keyframe easings whose
sampled values lie in `[0, 1]` (always true for `linear`; true for a
cubic-bezier only if its y-control values keep `By ∘ solver` inside `[0, 1]`,
which the validator does NOT enforce), every emitted position lies within the
closed hull of some adjacent keyframe pair's positions, and hence within
`[0, length_mm]`. -/
theorem claim_C3_amended (p : MotionProfile) (dt : ℚ) (hv : ProfileValid p)
    (hdt : 0 < dt) (hE : ∀ k ∈ p.keyframes, EaseBounded k.ease) :
    ∀ y ∈ (sampleProfile p dt).2,
      (∃ i, i + 2 ≤ p.keyframes.length ∧
        min (p.keyframes.getD i dfltKeyframe).pos_mm
            (p.keyframes.getD (i + 1) dfltKeyframe).pos_mm ≤ y ∧
        y ≤ max (p.keyframes.getD i dfltKeyframe).pos_mm
            (p.keyframes.getD (i + 1) dfltKeyframe).pos_mm) ∧
      0 ≤ y ∧ y ≤ p.length_mm := by
  have hlen2 := hv.1
  have hbounds := hv.2.2.1
  have hhull : ∀ y, (∃ i, i + 2 ≤ p.keyframes.length ∧
      min (p.keyframes.getD i dfltKeyframe).pos_mm
          (p.keyframes.getD (i + 1) dfltKeyframe).pos_mm ≤ y ∧
      y ≤ max (p.keyframes.getD i dfltKeyframe).pos_mm
          (p.keyframes.getD (i + 1) dfltKeyframe).pos_mm) →
      0 ≤ y ∧ y ≤ p.length_mm := by
    rintro y ⟨i, hi, hmin, hmax⟩
    have hm0 := hbounds _ (getD_mem' dfltKeyframe (show i < p.keyframes.length by omega))
    have hm1 := hbounds _ (getD_mem' dfltKeyframe (show i + 1 < p.keyframes.length by omega))
    constructor
    · calc (0:ℚ) ≤ min (p.keyframes.getD i dfltKeyframe).pos_mm
            (p.keyframes.getD (i + 1) dfltKeyframe).pos_mm :=
            le_min hm0.2.1 hm1.2.1
        _ ≤ y := hmin
    · calc y ≤ max (p.keyframes.getD i dfltKeyframe).pos_mm
            (p.keyframes.getD (i + 1) dfltKeyframe).pos_mm := hmax
        _ ≤ p.length_mm := max_le hm0.2.2 hm1.2.2
  intro y hy
  have h0lt : (p.keyframes.getD 0 dfltKeyframe).t <
      (p.keyframes.getD (p.keyframes.length - 1) dfltKeyframe).t :=
    pairwise_getD_lt hv.2.1 dfltKeyframe (by omega) (by omega)
  have ht0 : 0 ≤ (p.keyframes.getD 0 dfltKeyframe).t :=
    (hbounds _ (getD_mem' dfltKeyframe (by omega))).1
  have hlastpos : 0 < (p.keyframes.getD (p.keyframes.length - 1) dfltKeyframe).t := by
    linarith
  unfold sampleProfile at hy
  dsimp only at hy
  rw [if_neg (not_le.mpr hlastpos)] at hy
  split at hy
  · rcases List.mem_append.mp hy with hy' | hy'
    · have := sampleGo_pos_mem _ _ hE _ 0 0 (by omega) y hy'
      exact ⟨this, hhull y this⟩
    · have hyeq : y = (p.keyframes.getD (p.keyframes.length - 1) dfltKeyframe).pos_mm := by
        simpa using hy'
      subst hyeq
      have hidx : p.keyframes.length - 2 + 1 = p.keyframes.length - 1 := by omega
      have hex : ∃ i, i + 2 ≤ p.keyframes.length ∧
          min (p.keyframes.getD i dfltKeyframe).pos_mm
              (p.keyframes.getD (i + 1) dfltKeyframe).pos_mm ≤
            (p.keyframes.getD (p.keyframes.length - 1) dfltKeyframe).pos_mm ∧
          (p.keyframes.getD (p.keyframes.length - 1) dfltKeyframe).pos_mm ≤
            max (p.keyframes.getD i dfltKeyframe).pos_mm
              (p.keyframes.getD (i + 1) dfltKeyframe).pos_mm := by
        refine ⟨p.keyframes.length - 2, by omega, ?_, ?_⟩
        · rw [hidx]
          exact min_le_right _ _
        · rw [hidx]
          exact le_max_right _ _
      exact ⟨hex, hhull _ hex⟩
  · have := sampleGo_pos_mem _ _ hE _ 0 0 (by omega) y hy
    exact ⟨this, hhull y this⟩

/-- C3 (witness): the amended bound at a concrete all-linear profile. -/
theorem claim_C3_witness :
    ProfileValid profW ∧ (0:ℚ) < 1/2 ∧
    ∀ y ∈ (sampleProfile profW (1/2)).2, 0 ≤ y ∧ y ≤ profW.length_mm :=
  ⟨by decide, by norm_num,
   fun y hy =>
     (claim_C3_amended profW (1/2) (by decide) (by norm_num)
       (fun k hk => by
         have hk' : k.ease = { kind := EaseKind.linear, p := none } := by
           rcases List.mem_cons.mp hk with rfl | hk2
           · rfl
           · rcases List.mem_cons.mp hk2 with rfl | hk3
             · rfl
             · simp [profW] at hk3
         rw [hk']
         exact easeBounded_linear) y hy).2⟩

end CameraSlider
